import Mathlib

/-!
Verification of the pyhopper search scheduler (`pyhopper/search.py`).

The development shallowly embeds the parts of `Search` that the claims
refer to: the result-draining routine `_async_result_ready`, the main
loop of `Search.run`, tree mutation `mutate_from_best`, manual enqueueing
`_enqueue_rec` / `enqueue`, the checkpoint protocol `save` / `load`, and
the parameter factory `register_int`.  Objective values and temperatures
are modelled as rationals; NaN is carried as the explicit `is_nan` flag
of a candidate result, exactly as in the source.  Components of the
repository that are not part of `search.py` (the `ScheduledRun` budget
controller, the `EvaluationCache`, the inline `execute` helper, the
`History` recorder) are modelled from the specification and marked as
such in their doc comments.
-/

namespace Pyhopper

/-- Objective direction, as normalised by the run context
(`direction` argument of `Search.run`). -/
inductive Direction where
  | max
  | min
deriving DecidableEq, Repr

/-- Outcome of one evaluation, mirroring the fields of the candidate
result object consumed by `Search._async_result_ready`: a numeric value,
an error indicator, a NaN indicator, a pruned indicator and the
intermediate estimates for the pruner. -/
structure CandidateResult where
  value : ℚ
  error : Option String
  is_nan : Bool
  was_pruned : Bool
  intermediate_results : List ℚ
deriving DecidableEq, Repr

/-- Callback notifications issued by `_async_result_ready` and
`_submit_candidate` (`on_evaluate_pruned`, `on_evaluate_nan`,
`on_evaluate_end`, `on_new_best`). -/
inductive Event (α : Type) where
  | evaluatePruned (candidate : α)
  | evaluateNan (candidate : α)
  | evaluateEnd (candidate : α) (value : ℚ)
  | newBest (candidate : α) (value : ℚ)
deriving DecidableEq, Repr

/-- How `_async_result_ready` returns to its caller: either it raises a
`ValueError` with the given message or it returns normally. -/
inductive Outcome where
  | raised (msg : String)
  | returned
deriving DecidableEq, Repr

/-- The state of a `Search` object read and written by
`_async_result_ready`:  `best_f` / `best_solution` (`self._best_f`,
`self._best_solution`), the caught-exception flag
(`self._caught_exception`), the evaluation cache (`self._f_cache`,
committed entries and staged fingerprints, modelled from spec §4.3
because `pyhopper/cache.py` is not part of the analysed sources), and
the run-context fields used by the routine (`direction`, `ignore_nans`,
whether a pruner is present together with the data fed to it, and
whether `_shutdown_worker_processes` has been invoked). -/
structure SearchState (α : Type) where
  best_f : Option ℚ
  best_solution : α
  caught_exception : Bool
  cacheCommitted : List (α × ℚ)
  cacheStaged : List α
  cacheEnabled : Bool
  direction : Direction
  ignore_nans : Bool
  prunerActive : Bool
  prunerTrace : List (List ℚ × Bool)
  poolShutdown : Bool
deriving DecidableEq, Repr

/-- Modelled from the spec (§4.3): `EvaluationCache.__contains__` tests
membership across both committed and staged fingerprints, and
`set_enabled(False)` disables the membership check entirely. -/
def cacheContains [DecidableEq α] (s : SearchState α) (c : α) : Bool :=
  s.cacheEnabled &&
    (s.cacheStaged.contains c || (s.cacheCommitted.map Prod.fst).contains c)

/-- Modelled from the spec (§4.3): `EvaluationCache.stage` marks a
candidate as in flight. -/
def cacheStage (s : SearchState α) (c : α) : SearchState α :=
  { s with cacheStaged := s.cacheStaged ++ [c] }

/-- Modelled from the spec (§4.3): `EvaluationCache.commit` records the
resolved value of a candidate and clears its in-flight status. -/
def cacheCommit [DecidableEq α] (s : SearchState α) (c : α) (v : ℚ) : SearchState α :=
  { s with
    cacheCommitted := s.cacheCommitted ++ [(c, v)]
    cacheStaged := s.cacheStaged.filter (fun x => x ≠ c) }

/-- Message of the `ValueError` raised on the first worker-side
exception (`search.py` line 489). -/
def remoteExceptionMsg : String :=
  "Pyhopper - Remote process caught exception"

/-- Message of the `ValueError` raised on a NaN objective value when
NaNs are not ignored (`search.py` lines 492-494). -/
def nanMsg : String :=
  "NaN returned in objective function"

/-- Embedding of `Search._async_result_ready` (`search.py` lines
478-536).  Returns the updated search state, the list of callback
notifications issued, and whether the call raised or returned. -/
def asyncResultReady [DecidableEq α] (s : SearchState α) (candidate : α)
    (r : CandidateResult) : SearchState α × List (Event α) × Outcome :=
  if r.error.isSome then
    if ¬ s.caught_exception then
      ({ s with caught_exception := true, poolShutdown := true }, [],
        .raised remoteExceptionMsg)
    else
      (s, [], .returned)
  else if r.is_nan ∧ ¬ s.ignore_nans then
    (s, [], .raised nanMsg)
  else
    let s1 := cacheCommit s candidate r.value
    let s2 :=
      if s1.prunerActive ∧ ¬ r.is_nan then
        { s1 with
          prunerTrace := s1.prunerTrace ++ [(r.intermediate_results, r.was_pruned)] }
      else s1
    if r.was_pruned then
      (s2, [.evaluatePruned candidate], .returned)
    else if r.is_nan then
      (s2, [.evaluateNan candidate], .returned)
    else if s2.best_f = none
        ∨ (s2.direction = .max ∧ ∃ bf ∈ s2.best_f, bf < r.value)
        ∨ (s2.direction = .min ∧ ∃ bf ∈ s2.best_f, r.value < bf) then
      ({ s2 with best_solution := candidate, best_f := some r.value },
        [.evaluateEnd candidate r.value, .newBest candidate r.value], .returned)
    else
      (s2, [.evaluateEnd candidate r.value], .returned)

/-- Duplicate-rejection temperature update of the search loop
(`search.py` lines 718-723): `current_temperature *= 1.05` followed by
`current_temperature = max(current_temperature, 1)`. -/
def rejectionTemperatureUpdate (t : ℚ) : ℚ :=
  max (t * (105 / 100)) 1

/-- Origin tags of submitted candidates (`utils.CandidateType` as used in
`Search.run`). -/
inductive CandidateType where
  | INIT
  | MANUALLY_ADDED
  | RANDOM_SEEDING
  | LOCAL_SAMPLING
deriving DecidableEq, Repr

/-- Modelled from the spec (§4.2): the `ScheduledRun` budget controller
of `pyhopper/run_context.py` in its step-budget configuration.  It holds
the configured step budget, the seeding-phase step budget, the elapsed
step count and the temperature endpoints. -/
structure ScheduledRun where
  steps : ℕ
  seeding_steps : ℕ
  current_step : ℕ
  start_temperature : ℚ
  end_temperature : ℚ
deriving DecidableEq, Repr

/-- Modelled from the spec (§4.2): termination fires when the
accumulated elapsed steps meet the configured step budget. -/
def ScheduledRun.is_timeout (s : ScheduledRun) : Bool :=
  s.steps ≤ s.current_step

/-- Modelled from the spec (§4.2): the seeding phase lasts until its
configured step budget is exhausted. -/
def ScheduledRun.is_in_seeding_mode (s : ScheduledRun) : Bool :=
  s.current_step < s.seeding_steps

/-- Modelled from the spec (§4.2): `increment_step` advances the elapsed
step count by one. -/
def ScheduledRun.increment_step (s : ScheduledRun) : ScheduledRun :=
  { s with current_step := s.current_step + 1 }

/-- Modelled from the spec (§4.2): the schedule temperature is linearly
interpolated from the start to the end temperature as a function of the
fraction of the step budget consumed, clipped to [0, 1]. -/
def ScheduledRun.temperature (s : ScheduledRun) : ℚ :=
  let frac : ℚ := if s.steps = 0 then 1 else min ((s.current_step : ℚ) / (s.steps : ℚ)) 1
  min (max (s.start_temperature + (s.end_temperature - s.start_temperature) * frac) 0) 1

/-- State threaded through the main loop of `Search.run`: the
`SearchState` core owned by `_async_result_ready`, the schedule, the
current temperature local variable, the manual queue
(`self._manually_queued_candidates`) and the ordered trace of submitted
candidates (the `on_evaluate_start` notifications of
`_submit_candidate`). -/
structure LoopState (α : Type) where
  core : SearchState α
  schedule : ScheduledRun
  current_temperature : ℚ
  manualQueue : List α
  trace : List (CandidateType × α)
deriving DecidableEq, Repr

/-- Modelled from the spec (§4.4, §6): the inline `execute` helper of
`pyhopper/parallel.py` for a total scalar objective function — it
evaluates the objective on the candidate and wraps the plain value in a
candidate result with no error, NaN or pruning indication. -/
def inlineExecute (objective : α → ℚ) (candidate : α) : CandidateResult :=
  { value := objective candidate
    error := none
    is_nan := false
    was_pruned := false
    intermediate_results := [] }

/-- Embedding of `Search._submit_candidate` (`search.py` lines 431-453)
in the single-job configuration: notify `on_evaluate_start` (recorded in
the trace), stage the candidate in the cache, execute inline and hand
the result to `_async_result_ready`. -/
def submitCandidate [DecidableEq α] (objective : α → ℚ) (ctype : CandidateType)
    (candidate : α) (st : LoopState α) : LoopState α :=
  let st := { st with trace := st.trace ++ [(ctype, candidate)] }
  let core := cacheStage st.core candidate
  let out := asyncResultReady core candidate (inlineExecute objective candidate)
  { st with core := out.1 }

/-- Candidate selection of one loop iteration (`search.py` lines
700-708): pop the front of the manual queue if it is non-empty
(`MANUALLY_ADDED`), otherwise draw via `sample_solution` in the seeding
phase (`RANDOM_SEEDING`) or mutate from best (`LOCAL_SAMPLING`), with
the stochastic sources supplied as oracles indexed by the elapsed step
count. -/
def selectCandidate (sample mutate : ℕ → α) (st : LoopState α) :
    CandidateType × α × LoopState α :=
  match st.manualQueue with
  | c :: rest => (.MANUALLY_ADDED, c, { st with manualQueue := rest })
  | [] =>
    if st.schedule.is_in_seeding_mode then
      (.RANDOM_SEEDING, sample st.schedule.current_step, st)
    else
      (.LOCAL_SAMPLING, mutate st.schedule.current_step, st)

/-- One iteration of the main loop of `Search.run` (`search.py` lines
700-724): select a candidate; if it is already contained in the
evaluation cache, reject it and bump the current temperature
(lines 718-723), otherwise submit it and refresh the temperature from
the schedule (line 717); finally advance the step counter
(line 724). -/
def loopIteration [DecidableEq α] (objective : α → ℚ) (sample mutate : ℕ → α)
    (st : LoopState α) : LoopState α :=
  let sel := selectCandidate sample mutate st
  let st1 := sel.2.2
  let st2 :=
    if cacheContains st1.core sel.2.1 then
      { st1 with
        current_temperature := rejectionTemperatureUpdate st1.current_temperature }
    else
      let st1b := submitCandidate objective sel.1 sel.2.1 st1
      { st1b with current_temperature := st1b.schedule.temperature }
  { st2 with schedule := st2.schedule.increment_step }

/-- Embedding of the main loop of `Search.run` (`search.py` lines
692-726) in the single-job configuration: iterate while the schedule has
not timed out.  `fuel` bounds the recursion and exceeds the remaining
budget wherever the model is used. -/
def runLoop [DecidableEq α] (objective : α → ℚ) (sample mutate : ℕ → α) :
    ℕ → LoopState α → LoopState α
  | 0, st => st
  | fuel + 1, st =>
    if st.schedule.is_timeout then st
    else
      runLoop objective sample mutate fuel
        (loopIteration objective sample mutate st)

/-- Embedding of `Search.run` (`search.py` lines 675-739) in the
single-job, step-budget configuration: if no best value exists and no
candidates are manually queued, the initial solution is evaluated once
as a baseline and the step counter advances; then the main loop runs
until the schedule times out.  The initial best value, evaluation cache
contents and manual queue are parameters so that runs of a fresh or a
restored `Search` object are both covered.  The configuration-error
guard for a search space without any free parameter (`search.py` lines
695-698) is not modelled: every claim about the loop presumes a
non-empty search space. -/
def runModel [DecidableEq α] (objective : α → ℚ) (sample mutate : ℕ → α)
    (direction : Direction) (steps seeding_steps : ℕ)
    (initSolution : α) (queue : List α)
    (best_f0 : Option ℚ) (cache0 : List (α × ℚ)) : LoopState α :=
  let schedule : ScheduledRun :=
    { steps := steps, seeding_steps := seeding_steps, current_step := 0
      start_temperature := 1, end_temperature := 0 }
  let core : SearchState α :=
    { best_f := best_f0
      best_solution := initSolution
      caught_exception := false
      cacheCommitted := cache0
      cacheStaged := []
      cacheEnabled := true
      direction := direction
      ignore_nans := false
      prunerActive := false
      prunerTrace := []
      poolShutdown := false }
  let st : LoopState α :=
    { core := core, schedule := schedule, current_temperature := schedule.temperature
      manualQueue := queue, trace := [] }
  let st :=
    if st.core.best_f = none ∧ st.manualQueue = [] then
      let st := submitCandidate objective .INIT st.core.best_solution st
      { st with schedule := st.schedule.increment_step }
    else st
  runLoop objective sample mutate (steps + 1) st

/-- Search-space tree as traversed by `Search.mutate_from_best`
(`search.py` lines 397-429): a node is a free `Parameter` leaf (tagged
with an identifier), a non-`Parameter` constant leaf, or a dict / list
of child nodes. -/
inductive PTree (α : Type) where
  | param (id : ℕ)
  | constVal (v : α)
  | dictNode (children : List (PTree α))
  | listNode (children : List (PTree α))

/-- Result tree of `mutate_from_best`: each free `Parameter` leaf either
had `node.mutate(best_node, temperature)` applied (`mutated`) or had the
best solution's value copied (`kept`); constants pass through. -/
inductive MTree (α : Type) where
  | mutated (id : ℕ)
  | kept (id : ℕ)
  | constVal (v : α)
  | dictNode (children : List (MTree α))
  | listNode (children : List (MTree α))

mutual

/-- Number of free `Parameter` leaves of a tree
(`Search._count_free_parameters_rec`, `search.py` lines 287-297). -/
def PTree.freeParamCount : PTree α → ℕ
  | .param _ => 1
  | .constVal _ => 0
  | .dictNode cs => PTree.freeParamCountList cs
  | .listNode cs => PTree.freeParamCountList cs

/-- Sum of the free-parameter counts of a list of child nodes. -/
def PTree.freeParamCountList : List (PTree α) → ℕ
  | [] => 0
  | c :: cs => PTree.freeParamCount c + PTree.freeParamCountList cs

end

mutual

/-- Number of leaves of the mutation result whose value was mutated
rather than copied from the best solution. -/
def MTree.mutatedCount : MTree α → ℕ
  | .mutated _ => 1
  | .kept _ => 0
  | .constVal _ => 0
  | .dictNode cs => MTree.mutatedCountList cs
  | .listNode cs => MTree.mutatedCountList cs

/-- Sum of the mutated-leaf counts of a list of child nodes. -/
def MTree.mutatedCountList : List (MTree α) → ℕ
  | [] => 0
  | c :: cs => MTree.mutatedCount c + MTree.mutatedCountList cs

end

mutual

/-- Constant leaves of a search-space tree in traversal order. -/
def PTree.constLeaves : PTree α → List α
  | .param _ => []
  | .constVal v => [v]
  | .dictNode cs => PTree.constLeavesList cs
  | .listNode cs => PTree.constLeavesList cs

/-- Concatenated constant leaves of a list of child nodes. -/
def PTree.constLeavesList : List (PTree α) → List α
  | [] => []
  | c :: cs => PTree.constLeaves c ++ PTree.constLeavesList cs

end

mutual

/-- Constant leaves of a mutation result in traversal order. -/
def MTree.constLeaves : MTree α → List α
  | .mutated _ => []
  | .kept _ => []
  | .constVal v => [v]
  | .dictNode cs => MTree.constLeavesList cs
  | .listNode cs => MTree.constLeavesList cs

/-- Concatenated constant leaves of a list of mutation-result nodes. -/
def MTree.constLeavesList : List (MTree α) → List α
  | [] => []
  | c :: cs => MTree.constLeaves c ++ MTree.constLeavesList cs

end

mutual

/-- Recursive body of `Search.mutate_from_best` (`search.py` lines
410-429).  Each `Parameter` leaf consumes one bit of the shared bitmask
(`bitmask.pop()`) deciding whether to mutate or to copy the best value;
constants pass through; dicts and lists recurse per child.  The mask is
threaded as a stack whose head is the next bit popped (Python pops from
the list's end; since the drawn mask is shuffled into an arbitrary order
anyway, the theorems quantify over all permutations of the drawn mask).
An empty mask at a `Parameter` leaf would raise `IndexError` in the
source; it is unreachable whenever the mask has as many bits as the tree
has free parameters, which the top-level caller guarantees. -/
def mutateTree : PTree α → List Bool → MTree α × List Bool
  | .param i, b :: rest => ((if b then .mutated i else .kept i), rest)
  | .param i, [] => (.kept i, [])
  | .constVal v, mask => (.constVal v, mask)
  | .dictNode cs, mask =>
    let out := mutateChildren cs mask
    (.dictNode out.1, out.2)
  | .listNode cs, mask =>
    let out := mutateChildren cs mask
    (.listNode out.1, out.2)

/-- Child-list traversal of `mutateTree`, threading the bitmask through
the children in order. -/
def mutateChildren : List (PTree α) → List Bool → List (MTree α) × List Bool
  | [], mask => ([], mask)
  | c :: cs, mask =>
    let hd := mutateTree c mask
    let tl := mutateChildren cs hd.2
    (hd.1 :: tl.1, tl.2)

end

/-- Python's builtin `round` on an exact rational: round half to even
(as applied to `temperature * free_param_count` in `mutate_from_best`,
`search.py` line 405). -/
def pyRound (q : ℚ) : ℤ :=
  if q - ⌊q⌋ < 1 / 2 then ⌊q⌋
  else if (1 : ℚ) / 2 < q - ⌊q⌋ then ⌊q⌋ + 1
  else if 2 ∣ ⌊q⌋ then ⌊q⌋ else ⌊q⌋ + 1

/-- `np.clip(temperature, 0, 1)` (`search.py` line 400). -/
def clip01 (t : ℚ) : ℚ := min (max t 0) 1

/-- Number of parameters to mutate (`search.py` lines 404-406):
`int(max(round(temperature * free_param_count), 1))` for the clipped
temperature — at least 1, at most all. -/
def amountToMutate (t : ℚ) (n : ℕ) : ℤ :=
  max (pyRound (clip01 t * n)) 1

/-- The bitmask drawn at the root of `mutate_from_best` (`search.py`
line 407) before shuffling: `[i < amount_to_mutate for i in
range(free_param_count)]`. -/
def drawnMask (t : ℚ) (n : ℕ) : List Bool :=
  (List.range n).map (fun i : ℕ => decide ((i : ℤ) < amountToMutate t n))

/-- Top level of `Search.mutate_from_best` (`search.py` lines 397-408):
clip the temperature, draw the bitmask sized to the free-parameter
count, shuffle it (the shuffled order is passed in as `mask`) and
traverse the tree. -/
def mutateFromBest (tree : PTree α) (mask : List Bool) : MTree α :=
  (mutateTree tree mask).1

/-- Concrete candidate / best-solution value trees as traversed by
`Search._enqueue_rec` (`search.py` lines 310-339): leaves are concrete
values, inner nodes are ordered dicts (association lists keyed by
strings, preserving insertion order) or lists. -/
inductive VTree (α : Type) where
  | leaf (v : α)
  | dictNode (entries : List (String × VTree α))
  | listNode (items : List (VTree α))

/-- Keys of a dict node in order; empty for non-dict nodes
(`node_candidate.keys()`). -/
def VTree.keys : VTree α → List String
  | .dictNode entries => entries.map Prod.fst
  | _ => []

/-- Error message for a candidate node that is not a dict where the
registered tree has one (`search.py` lines 313-315). -/
def structureMismatchMsg : String :=
  "Parameter guess does not match the tree structure registered in Search.__init__"

/-- Error message for a candidate key that was never registered in the
search space (`search.py` lines 318-321). -/
def unknownKeyMsg (k : String) : String :=
  "Parameter guess for " ++ k ++ " was provided but has not been registered in Search.__init__"

/-- Error standing for the uncaught `TypeError` that
`len(node_candidate)` raises when the registered tree has a list node
but the guess is a scalar (`search.py` line 333). -/
def lenTypeErrorMsg : String :=
  "TypeError: object has no len"

mutual

/-- Embedding of `Search._enqueue_rec` (`search.py` lines 310-339).
Dict nodes: the guess must be a dict, every guessed key must be
registered, and the merged node takes the guessed subtree for guessed
keys and the best solution's subtree for untouched keys, in the
registered key order.  List nodes: positions beyond the guess's length
are filled from the best solution.  Leaves: the guess replaces the best
value. -/
def enqueueRec [DecidableEq α] : VTree α → VTree α → Except String (VTree α)
  | .dictNode bestEntries, cand =>
    match cand with
    | .dictNode candEntries =>
      if candEntries.all (fun e => (bestEntries.map Prod.fst).contains e.1) then
        match enqueueDict bestEntries candEntries with
        | .ok merged => .ok (.dictNode merged)
        | .error e => .error e
      else
        match candEntries.find? (fun e => ¬ (bestEntries.map Prod.fst).contains e.1) with
        | some e => .error (unknownKeyMsg e.1)
        | none => .error (unknownKeyMsg "")
    | _ => .error structureMismatchMsg
  | .listNode bestItems, cand =>
    match cand with
    | .listNode candItems =>
      match enqueueList bestItems candItems with
      | .ok merged => .ok (.listNode merged)
      | .error e => .error e
    | _ => .error lenTypeErrorMsg
  | .leaf _, cand => .ok cand

/-- Dict-entry traversal of `enqueueRec`: for each registered key, in
order, recurse into the guess if the key was guessed, otherwise copy the
best solution's subtree. -/
def enqueueDict [DecidableEq α] :
    List (String × VTree α) → List (String × VTree α) →
    Except String (List (String × VTree α))
  | [], _ => .ok []
  | (k, bv) :: rest, candEntries =>
    match candEntries.find? (fun e => e.1 = k) with
    | some e =>
      match enqueueRec bv e.2 with
      | .ok merged =>
        match enqueueDict rest candEntries with
        | .ok tl => .ok ((k, merged) :: tl)
        | .error err => .error err
      | .error err => .error err
    | none =>
      match enqueueDict rest candEntries with
      | .ok tl => .ok ((k, bv) :: tl)
      | .error err => .error err

/-- List-item traversal of `enqueueRec`: positions covered by the guess
recurse, later positions copy the best solution's item. -/
def enqueueList [DecidableEq α] :
    List (VTree α) → List (VTree α) → Except String (List (VTree α))
  | [], _ => .ok []
  | bv :: rest, candItems =>
    match candItems with
    | cv :: candRest =>
      match enqueueRec bv cv with
      | .ok merged =>
        match enqueueList rest candRest with
        | .ok tl => .ok (merged :: tl)
        | .error err => .error err
      | .error err => .error err
    | [] =>
      match enqueueList rest [] with
      | .ok tl => .ok (bv :: tl)
      | .error err => .error err

end

/-- Embedding of `Search.enqueue` (`search.py` lines 341-349): merge the
guess with the current best solution via `_enqueue_rec` and append the
result to the manual queue; a mismatch error propagates to the caller
immediately. -/
def enqueue [DecidableEq α] (best : VTree α) (queue : List (VTree α))
    (candidate : VTree α) : Except String (List (VTree α)) :=
  match enqueueRec best candidate with
  | .ok added => .ok (queue ++ [added])
  | .error e => .error e

/-- Modelled from the spec (§4.6): the serializable sub-state of a run
context returned by `RunContext.state_dict` — the objective direction
and the budget/temperature progress. -/
structure RCState where
  direction : Direction
  progress : ℕ
deriving DecidableEq, Repr

/-- Modelled from the spec (§3): the run context as far as `save` /
`load` touch it — its termination flag, the identity of the pruner bound
to it (if any) and its serializable sub-state. -/
structure RunCtx where
  terminate : Bool
  prunerId : Option ℕ
  sd : RCState
deriving DecidableEq, Repr

/-- The state of a `Search` object captured and restored by
`Search.save` / `Search.load` (`search.py` lines 741-800): best value,
best solution, evaluation-cache state (committed entries and staged
fingerprints, modelled from spec §4.3), history (modelled from spec §6
as the list of evaluated candidates with their objective values) and the
optional run context. -/
structure CkptSearch (α : Type) where
  best_f : Option ℚ
  best_solution : α
  cacheCommitted : List (α × ℚ)
  cacheStaged : List α
  history : List (α × ℚ)
  run_context : Option RunCtx
deriving DecidableEq, Repr

/-- Evaluation-cache membership of a checkpointable search state, across
committed and staged entries (spec §4.3). -/
def ckptCacheContains [DecidableEq α] (s : CkptSearch α) (c : α) : Bool :=
  s.cacheStaged.contains c || (s.cacheCommitted.map Prod.fst).contains c

/-- The persisted checkpoint record written by `Search.save`: one field
per key of the `state_dict`, where `none` models a missing key (needed
to express corrupt checkpoints) and `some v` a present key with value
`v`.  `store_dict` / `load_dict` round-trip the record without loss
(spec §6), so the record itself stands for the on-disk file. -/
structure Ckpt (α : Type) where
  run_context : Option (Option RCState)
  cache : Option (List (α × ℚ) × List α)
  best_f : Option (Option ℚ)
  history : Option (List (α × ℚ))
  prunerS : Option ℕ
  best_solution : Option α
deriving DecidableEq, Repr

/-- Error message when different pruner objects are passed to `save` and
bound to the run context (`search.py` lines 746-749). -/
def prunerMismatchSaveMsg : String :=
  "Error. Pruner object passed to save and other pruner object passed to run"

/-- Error message when different pruner objects are passed to `load` and
bound to the run context (`search.py` lines 791-794). -/
def prunerMismatchLoadMsg : String :=
  "Error. Pruner object passed to load and other pruner object passed to run"

/-- The descriptive `ValueError` message wrapping a `KeyError` on a
missing checkpoint key (`search.py` line 800); the source wraps the path
in single quotes, here it is concatenated directly. -/
def keyErrorWrapMsg (path key : String) : String :=
  "Could not parse file " ++ path ++ " (KeyError " ++ key ++ ")"

/-- Message of the `AttributeError` raised when a checkpoint carrying a
non-null run-context state is loaded into a `Search` object whose
`_run_context` is `None` (`search.py` lines 779-780): `None` has no
attribute `load_state_dict`.  It is not a `KeyError`, so the
`except KeyError` clause does not wrap it. -/
def noneLoadStateMsg : String :=
  "AttributeError: NoneType object has no attribute load_state_dict"

/-- How `Search.load` can fail: with a `ValueError` (descriptive wrap of
a missing key, or a pruner mismatch) or with the uncaught
`AttributeError` of line 780. -/
inductive LoadErr where
  | valueError (msg : String)
  | attributeError (msg : String)
deriving DecidableEq, Repr

/-- The record written by `Search.save` once the effective pruner is
known (`search.py` lines 752-764): the run-context state is stored as
null if there is no run context or it has terminated; cache, best value,
history and best solution are always stored; the pruner state (its
identity, standing for `pruner.state_dict()`) is stored only when a
pruner is present. -/
def mkCkpt (s : CkptSearch α) (pruner : Option ℕ) : Ckpt α :=
  { run_context :=
      some (match s.run_context with
            | none => none
            | some ctx => if ctx.terminate then none else some ctx.sd)
    cache := some (s.cacheCommitted, s.cacheStaged)
    best_f := some s.best_f
    history := some s.history
    prunerS := pruner
    best_solution := some s.best_solution }

/-- Embedding of `Search.save` (`search.py` lines 741-768).  If a pruner
is bound to the run context, a different pruner passed as argument is a
`ValueError` and otherwise the bound pruner is the one saved. -/
def saveModel (s : CkptSearch α) (prunerArg : Option ℕ) :
    Except String (Ckpt α) :=
  match s.run_context with
  | some ctx =>
    if ctx.prunerId.isSome then
      if prunerArg.isSome ∧ prunerArg ≠ ctx.prunerId then
        .error prunerMismatchSaveMsg
      else
        .ok (mkCkpt s ctx.prunerId)
    else
      .ok (mkCkpt s prunerArg)
  | none => .ok (mkCkpt s prunerArg)

/-- Continuation of `Search.load` after the run-context field has been
processed (`search.py` lines 782-797): restore cache, history, best
value and best solution in source order — the first missing key aborts
with the wrapped descriptive error — then handle the optional pruner
entry with its mismatch check. -/
def loadRest [DecidableEq α] (s : CkptSearch α) (path : String)
    (prunerArg : Option ℕ) (ck : Ckpt α) : Except LoadErr (CkptSearch α) :=
  match ck.cache with
  | none => .error (.valueError (keyErrorWrapMsg path "cache"))
  | some cv =>
    let s := { s with cacheCommitted := cv.1, cacheStaged := cv.2 }
    match ck.history with
    | none => .error (.valueError (keyErrorWrapMsg path "history"))
    | some hv =>
      let s := { s with history := hv }
      match ck.best_f with
      | none => .error (.valueError (keyErrorWrapMsg path "best_f"))
      | some fv =>
        let s := { s with best_f := fv }
        match ck.best_solution with
        | none => .error (.valueError (keyErrorWrapMsg path "best_solution"))
        | some sv =>
          let s := { s with best_solution := sv }
          match ck.prunerS with
          | none => .ok s
          | some _ =>
            match s.run_context with
            | some ctx =>
              if ctx.prunerId.isSome then
                if prunerArg.isSome ∧ prunerArg ≠ ctx.prunerId then
                  .error (.valueError prunerMismatchLoadMsg)
                else
                  .ok s
              else
                .ok s
            | none => .ok s

/-- Embedding of `Search.load` (`search.py` lines 770-800).  The
`run_context` key is accessed first; a stored non-null run-context state
is restored into the live run context — which raises an uncaught
`AttributeError` when the `Search` object has none — and the remaining
fields are restored by `loadRest`.  Missing keys surface as the single
descriptive `ValueError` naming the checkpoint file. -/
def loadModel [DecidableEq α] (s : CkptSearch α) (path : String)
    (prunerArg : Option ℕ) (ck : Ckpt α) : Except LoadErr (CkptSearch α) :=
  match ck.run_context with
  | none => .error (.valueError (keyErrorWrapMsg path "run_context"))
  | some none => loadRest s path prunerArg ck
  | some (some rcs) =>
    match s.run_context with
    | none => .error (.attributeError noneLoadStateMsg)
    | some ctx =>
      loadRest { s with run_context := some { ctx with sd := rcs } } path prunerArg ck

/-- Minimum of a signed 32-bit integer (`np.iinfo(np.int32).min`). -/
def int32min : ℤ := -2147483648

/-- Maximum of a signed 32-bit integer (`np.iinfo(np.int32).max`). -/
def int32max : ℤ := 2147483647

/-- Modelled from the spec (docstrings of `register_int` /
`register_float`): `sanitize_bounds` turns a single given bound into the
upper bound with a lower bound of 0 and passes two given bounds
through. -/
def sanitize_bounds (lb ub : Option ℤ) : Option ℤ × Option ℤ :=
  match lb, ub with
  | some l, none => (some 0, some l)
  | _, _ => (lb, ub)

/-- An integer parameter as far as its bounds are concerned
(`IntParameter` of `pyhopper/parameters.py` is outside the analysed
sources; only the bounds computed by `register_int` are modelled). -/
structure IntParameter where
  lb : Option ℤ
  ub : Option ℤ
deriving DecidableEq, Repr

/-- Embedding of the bounds logic of `register_int` (`search.py` lines
75-79): if both bounds are left out, the parameter becomes a 32-bit
integer — the bounds are set to the signed 32-bit minimum and maximum —
and then the bounds are sanitized. -/
def register_int (lb ub : Option ℤ) : IntParameter :=
  let p :=
    if lb = none ∧ ub = none then (some int32min, some int32max) else (lb, ub)
  let q := sanitize_bounds p.1 p.2
  { lb := q.1, ub := q.2 }

/-- Modelled from the spec (§4.1): `sample()` and `mutate()` of every
parameter respect its bounds, so a value is admissible exactly when it
lies within them. -/
def IntParameter.inBounds (p : IntParameter) (v : ℤ) : Bool :=
  (match p.lb with | none => true | some l => decide (l ≤ v)) &&
  (match p.ub with | none => true | some u => decide (v ≤ u))

/-- Result draining as performed by `_wait_for_one_free_executor` /
`_wait_for_all_running_jobs` (`search.py` lines 455-476): each completed
candidate result is handed to `_async_result_ready` in order, and the
number of fatal error aborts (raises of the remote-exception
`ValueError`) is counted. -/
def processResults [DecidableEq α] (s : SearchState α) :
    List (α × CandidateResult) → SearchState α × ℕ
  | [] => (s, 0)
  | (c, r) :: rest =>
    let out := asyncResultReady s c r
    let tl := processResults out.1 rest
    (tl.1, (if out.2.2 = Outcome.raised remoteExceptionMsg then 1 else 0) + tl.2)

/-- The candidate the loop generates at step `j` when the manual queue
is empty: drawn from `sample_solution` during the seeding phase and from
`mutate_from_best` afterwards (`search.py` lines 703-708). -/
def genCand (sample mutate : ℕ → α) (seeding_steps j : ℕ) : α :=
  if j < seeding_steps then sample j else mutate j

/-- The origin tag of the candidate generated at step `j` when the
manual queue is empty. -/
def genType (seeding_steps j : ℕ) : CandidateType :=
  if j < seeding_steps then .RANDOM_SEEDING else .LOCAL_SAMPLING

/-!
## Theorems

One theorem per claim of the specification, with shared helper lemmas
where several claims need the same loop reasoning.
-/

/-- C1.  The claim states that on a duplicate rejection the current
temperature is multiplied by 1.05 and then capped at a maximum of 1, so
that it never exceeds 1.  The code (`search.py` line 723) instead
computes `max(current_temperature, 1)` — a floor, not a cap: at the
default start temperature 1 a single rejection already yields 21/20 > 1,
and the update keeps every temperature at least 1, so the claimed bound
fails on the code. -/
theorem c1_rejection_update_exceeds_one :
    rejectionTemperatureUpdate 1 = 21 / 20 ∧
      1 < rejectionTemperatureUpdate 1 ∧
      ∀ t : ℚ, 1 ≤ rejectionTemperatureUpdate t := by
  refine ⟨by norm_num [rejectionTemperatureUpdate], by norm_num [rejectionTemperatureUpdate], ?_⟩
  intro t
  exact le_max_right _ _

/-- C10.  `register_int` with both bounds left out sets the bounds to
the signed 32-bit minimum and maximum before sanitization, and every
value admissible under the resulting bounds lies in that range. -/
theorem c10_register_int_default_bounds :
    (register_int none none).lb = some int32min ∧
      (register_int none none).ub = some int32max ∧
      ∀ v : ℤ, (register_int none none).inBounds v = true →
        int32min ≤ v ∧ v ≤ int32max := by
  refine ⟨rfl, rfl, ?_⟩
  intro v hv
  simpa [register_int, sanitize_bounds, IntParameter.inBounds, int32min, int32max,
    and_assoc] using hv

/-- Witness for C10: the value 0 is admissible for the default integer
parameter and indeed lies within the 32-bit range. -/
theorem c10_register_int_default_bounds_witness :
    int32min ≤ (0 : ℤ) ∧ (0 : ℤ) ≤ int32max :=
  c10_register_int_default_bounds.2.2 0 (by decide)

/-- C3.  For every admissible (non-error, non-NaN, non-pruned) completed
evaluation, `_async_result_ready` replaces the stored best solution and
best value exactly when no best value exists yet or the new value
strictly improves on the current best in the configured direction
(strictly greater for max, strictly less for min); otherwise both are
left unchanged, and in particular a value equal to the current best
never replaces it. -/
theorem c3_best_update_strict_improvement {α : Type} [DecidableEq α]
    (s : SearchState α) (c : α) (r : CandidateResult)
    (herr : r.error = none) (hnan : r.is_nan = false) (hpr : r.was_pruned = false) :
    ((s.best_f = none
        ∨ (s.direction = Direction.max ∧ ∃ bf, s.best_f = some bf ∧ bf < r.value)
        ∨ (s.direction = Direction.min ∧ ∃ bf, s.best_f = some bf ∧ r.value < bf)) →
      (asyncResultReady s c r).1.best_f = some r.value ∧
      (asyncResultReady s c r).1.best_solution = c ∧
      Event.newBest c r.value ∈ (asyncResultReady s c r).2.1) ∧
    ((¬ (s.best_f = none
        ∨ (s.direction = Direction.max ∧ ∃ bf, s.best_f = some bf ∧ bf < r.value)
        ∨ (s.direction = Direction.min ∧ ∃ bf, s.best_f = some bf ∧ r.value < bf))) →
      (asyncResultReady s c r).1.best_f = s.best_f ∧
      (asyncResultReady s c r).1.best_solution = s.best_solution ∧
      Event.newBest c r.value ∉ (asyncResultReady s c r).2.1) ∧
    (s.best_f = some r.value →
      (asyncResultReady s c r).1.best_f = s.best_f ∧
      (asyncResultReady s c r).1.best_solution = s.best_solution) := by
  have hno : s.best_f = some r.value →
      ¬ (s.best_f = none
        ∨ (s.direction = Direction.max ∧ ∃ bf, s.best_f = some bf ∧ bf < r.value)
        ∨ (s.direction = Direction.min ∧ ∃ bf, s.best_f = some bf ∧ r.value < bf)) := by
    intro hbv
    rintro (hnone | ⟨hd, bf, hbf, hlt⟩ | ⟨hd, bf, hbf, hlt⟩)
    · exact Option.some_ne_none r.value (hbv.symm.trans hnone)
    all_goals
      rw [hbv] at hbf
      obtain rfl : bf = r.value := (Option.some_inj.mp hbf.symm)
      exact lt_irrefl _ hlt
  refine ⟨?_, ?_, ?_⟩
  · intro himp
    by_cases hp : s.prunerActive = true <;>
      simp [asyncResultReady, herr, hnan, hpr, cacheCommit, himp, hp]
  · intro himp
    by_cases hp : s.prunerActive = true <;>
      simp [asyncResultReady, herr, hnan, hpr, cacheCommit, himp, hp]
  · intro hbv
    have hcond := hno hbv
    by_cases hp : s.prunerActive = true <;>
      simp [asyncResultReady, herr, hnan, hpr, cacheCommit, hcond, hp]

/-- Witness for C3 at a concrete input: under direction max with current
best 5, a result of value 7 strictly improves and replaces the best,
while a tied result of value 5 leaves the best untouched. -/
theorem c3_best_update_strict_improvement_witness :
    (asyncResultReady
        { best_f := some 5, best_solution := (0 : ℕ), caught_exception := false,
          cacheCommitted := [], cacheStaged := [1], cacheEnabled := true,
          direction := Direction.max, ignore_nans := false, prunerActive := false,
          prunerTrace := [], poolShutdown := false } 1
        { value := 7, error := none, is_nan := false, was_pruned := false,
          intermediate_results := [] }).1.best_f = some 7 ∧
    (asyncResultReady
        { best_f := some 5, best_solution := (0 : ℕ), caught_exception := false,
          cacheCommitted := [], cacheStaged := [1], cacheEnabled := true,
          direction := Direction.max, ignore_nans := false, prunerActive := false,
          prunerTrace := [], poolShutdown := false } 1
        { value := 5, error := none, is_nan := false, was_pruned := false,
          intermediate_results := [] }).1.best_f = some 5 := by
  constructor
  · exact (c3_best_update_strict_improvement _ 1 _ rfl rfl rfl).1
      (Or.inr (Or.inl ⟨rfl, 5, rfl, by norm_num⟩)) |>.1
  · exact ((c3_best_update_strict_improvement _ 1 _ rfl rfl rfl).2.2 rfl).1

/-- Helper: the first error result (caught-exception flag clear) sets
the flag, shuts the pool down and raises the fatal `ValueError`
(`search.py` lines 479-489). -/
theorem asyncResultReady_error_first {α : Type} [DecidableEq α]
    (s : SearchState α) (c : α) (r : CandidateResult)
    (herr : r.error.isSome = true) (hflag : s.caught_exception = false) :
    asyncResultReady s c r =
      ({ s with caught_exception := true, poolShutdown := true }, [],
        Outcome.raised remoteExceptionMsg) := by
  simp [asyncResultReady, herr, hflag]

/-- Helper: an error result processed while the caught-exception flag is
already set returns silently and leaves the state unchanged
(`search.py` line 490). -/
theorem asyncResultReady_error_later {α : Type} [DecidableEq α]
    (s : SearchState α) (c : α) (r : CandidateResult)
    (herr : r.error.isSome = true) (hflag : s.caught_exception = true) :
    asyncResultReady s c r = (s, [], Outcome.returned) := by
  simp [asyncResultReady, herr, hflag]

/-- Helper: draining any sequence of error results from a state whose
caught-exception flag is already set raises nothing and changes
nothing. -/
theorem processResults_flagged {α : Type} [DecidableEq α] :
    ∀ (rs : List (α × CandidateResult)) (s : SearchState α),
      (∀ p ∈ rs, p.2.error.isSome = true) → s.caught_exception = true →
      (processResults s rs).2 = 0 ∧ (processResults s rs).1 = s := by
  intro rs
  induction rs with
  | nil => intro s _ _; exact ⟨rfl, rfl⟩
  | cons p rest ih =>
    intro s hall hflag
    obtain ⟨c, r⟩ := p
    have herr : r.error.isSome = true := hall (c, r) (List.mem_cons_self _ _)
    have h1 := asyncResultReady_error_later s c r herr hflag
    have hrest := ih s (fun q hq => hall q (List.mem_cons_of_mem _ hq)) hflag
    simp [processResults, h1, hrest.1, hrest.2]

/-- C5.  A candidate result carrying an error indicator: the first such
result sets the caught-exception state, shuts down the worker pool and
raises the fatal error; any error result processed while the flag is
already set returns without raising and changes nothing; consequently
draining any sequence of error results triggers the fatal abort at most
once, and never if the flag is already set. -/
theorem c5_error_abort_once {α : Type} [DecidableEq α]
    (s : SearchState α) (c : α) (r : CandidateResult)
    (herr : r.error.isSome = true) (rs : List (α × CandidateResult))
    (hall : ∀ p ∈ rs, p.2.error.isSome = true) :
    (s.caught_exception = false →
      (asyncResultReady s c r).1.caught_exception = true ∧
      (asyncResultReady s c r).1.poolShutdown = true ∧
      (asyncResultReady s c r).2.2 = Outcome.raised remoteExceptionMsg) ∧
    (s.caught_exception = true →
      asyncResultReady s c r = (s, [], Outcome.returned)) ∧
    (processResults s rs).2 ≤ 1 ∧
    (s.caught_exception = true → (processResults s rs).2 = 0) := by
  refine ⟨?_, ?_, ?_, ?_⟩
  · intro hflag
    simp [asyncResultReady_error_first s c r herr hflag]
  · intro hflag
    exact asyncResultReady_error_later s c r herr hflag
  · induction rs generalizing s with
    | nil => simp [processResults]
    | cons p rest ih =>
      obtain ⟨c1, r1⟩ := p
      have herr1 : r1.error.isSome = true := hall (c1, r1) (List.mem_cons_self _ _)
      have hall1 : ∀ q ∈ rest, q.2.error.isSome = true :=
        fun q hq => hall q (List.mem_cons_of_mem _ hq)
      by_cases hflag : s.caught_exception = true
      · have h1 := asyncResultReady_error_later s c1 r1 herr1 hflag
        have hrest := processResults_flagged rest s hall1 hflag
        simp [processResults, h1, hrest.1]
      · have hflag0 : s.caught_exception = false := by
          revert hflag; cases s.caught_exception <;> simp
        have h1 := asyncResultReady_error_first s c1 r1 herr1 hflag0
        have hrest := processResults_flagged rest
          { s with caught_exception := true, poolShutdown := true } hall1 rfl
        simp [processResults, h1, hrest.1]
  · intro hflag
    exact (processResults_flagged rs s hall hflag).1

/-- Witness for C5 at a concrete input: a failing result on a clean
state raises once, and draining two failing results raises at most
once. -/
theorem c5_error_abort_once_witness :
    (asyncResultReady
        { best_f := none, best_solution := (0 : ℕ), caught_exception := false,
          cacheCommitted := [], cacheStaged := [], cacheEnabled := true,
          direction := Direction.max, ignore_nans := false, prunerActive := false,
          prunerTrace := [], poolShutdown := false } 1
        { value := 0, error := some "boom", is_nan := false, was_pruned := false,
          intermediate_results := [] }).2.2 = Outcome.raised remoteExceptionMsg ∧
    (processResults
        { best_f := none, best_solution := (0 : ℕ), caught_exception := false,
          cacheCommitted := [], cacheStaged := [], cacheEnabled := true,
          direction := Direction.max, ignore_nans := false, prunerActive := false,
          prunerTrace := [], poolShutdown := false }
        [(1, { value := 0, error := some "boom", is_nan := false, was_pruned := false,
               intermediate_results := [] }),
         (2, { value := 0, error := some "boom", is_nan := false, was_pruned := false,
               intermediate_results := [] })]).2 ≤ 1 := by
  have h := c5_error_abort_once
    { best_f := none, best_solution := (0 : ℕ), caught_exception := false,
      cacheCommitted := [], cacheStaged := [], cacheEnabled := true,
      direction := Direction.max, ignore_nans := false, prunerActive := false,
      prunerTrace := [], poolShutdown := false } 1
    { value := 0, error := some "boom", is_nan := false, was_pruned := false,
      intermediate_results := [] } rfl
    [(1, { value := 0, error := some "boom", is_nan := false, was_pruned := false,
           intermediate_results := [] }),
     (2, { value := 0, error := some "boom", is_nan := false, was_pruned := false,
           intermediate_results := [] })] (by decide)
  exact ⟨(h.1 rfl).2.2, h.2.2.1⟩

/-- Counterexample for C6.  A candidate result with the NaN indicator
set and no error, but also flagged as pruned, processed with
`ignore_nans` set: `_async_result_ready` checks `was_pruned` first
(`search.py` line 507), so it notifies `on_evaluate_pruned` and never
`on_evaluate_nan`, contradicting the claim that every tolerated NaN
result notifies observers via `on_evaluate_nan`. -/
theorem c6_nan_pruned_counterexample :
    (asyncResultReady
        { best_f := some 5, best_solution := (0 : ℕ), caught_exception := false,
          cacheCommitted := [], cacheStaged := [1], cacheEnabled := true,
          direction := Direction.max, ignore_nans := true, prunerActive := false,
          prunerTrace := [], poolShutdown := false } 1
        { value := 3, error := none, is_nan := true, was_pruned := true,
          intermediate_results := [] }).2.1 = [Event.evaluatePruned 1] ∧
    Event.evaluateNan 1 ∉
      (asyncResultReady
        { best_f := some 5, best_solution := (0 : ℕ), caught_exception := false,
          cacheCommitted := [], cacheStaged := [1], cacheEnabled := true,
          direction := Direction.max, ignore_nans := true, prunerActive := false,
          prunerTrace := [], poolShutdown := false } 1
        { value := 3, error := none, is_nan := true, was_pruned := true,
          intermediate_results := [] }).2.1 := by
  refine ⟨by simp [asyncResultReady, cacheCommit], ?_⟩
  simp [asyncResultReady, cacheCommit]

/-- C6 (amended).  For every candidate result with the NaN indicator set
and no error: when `ignore_nans` is false, `_async_result_ready` raises
the fatal NaN error; when `ignore_nans` is true and the result is not
also flagged as pruned, it notifies observers via `on_evaluate_nan` and
returns without updating the best solution or best value; when the
result is also flagged as pruned, `on_evaluate_pruned` is notified
instead, still with no best update. -/
theorem c6_nan_handling_amended {α : Type} [DecidableEq α]
    (s : SearchState α) (c : α) (r : CandidateResult)
    (herr : r.error = none) (hnan : r.is_nan = true) :
    (s.ignore_nans = false →
      asyncResultReady s c r = (s, [], Outcome.raised nanMsg)) ∧
    (s.ignore_nans = true → r.was_pruned = false →
      (asyncResultReady s c r).2.1 = [Event.evaluateNan c] ∧
      (asyncResultReady s c r).2.2 = Outcome.returned ∧
      (asyncResultReady s c r).1.best_f = s.best_f ∧
      (asyncResultReady s c r).1.best_solution = s.best_solution) ∧
    (s.ignore_nans = true → r.was_pruned = true →
      (asyncResultReady s c r).2.1 = [Event.evaluatePruned c] ∧
      (asyncResultReady s c r).2.2 = Outcome.returned ∧
      (asyncResultReady s c r).1.best_f = s.best_f ∧
      (asyncResultReady s c r).1.best_solution = s.best_solution) := by
  refine ⟨?_, ?_, ?_⟩
  · intro hig
    simp [asyncResultReady, herr, hnan, hig]
  · intro hig hwp
    simp [asyncResultReady, herr, hnan, hig, hwp, cacheCommit]
  · intro hig hwp
    simp [asyncResultReady, herr, hnan, hig, hwp, cacheCommit]

/-- Witness for C6 (amended) at concrete inputs: a non-pruned NaN result
with `ignore_nans` set notifies `on_evaluate_nan` and keeps the best
value; with `ignore_nans` clear the same result raises the fatal NaN
error. -/
theorem c6_nan_handling_amended_witness :
    (asyncResultReady
        { best_f := some 5, best_solution := (0 : ℕ), caught_exception := false,
          cacheCommitted := [], cacheStaged := [1], cacheEnabled := true,
          direction := Direction.max, ignore_nans := true, prunerActive := false,
          prunerTrace := [], poolShutdown := false } 1
        { value := 3, error := none, is_nan := true, was_pruned := false,
          intermediate_results := [] }).2.1 = [Event.evaluateNan 1] ∧
    (asyncResultReady
        { best_f := some 5, best_solution := (0 : ℕ), caught_exception := false,
          cacheCommitted := [], cacheStaged := [1], cacheEnabled := true,
          direction := Direction.max, ignore_nans := true, prunerActive := false,
          prunerTrace := [], poolShutdown := false } 1
        { value := 3, error := none, is_nan := true, was_pruned := false,
          intermediate_results := [] }).1.best_f = some 5 ∧
    (asyncResultReady
        { best_f := some 5, best_solution := (0 : ℕ), caught_exception := false,
          cacheCommitted := [], cacheStaged := [1], cacheEnabled := true,
          direction := Direction.max, ignore_nans := false, prunerActive := false,
          prunerTrace := [], poolShutdown := false } 1
        { value := 3, error := none, is_nan := true, was_pruned := false,
          intermediate_results := [] }).2.2 = Outcome.raised nanMsg := by
  have h1 := c6_nan_handling_amended
    { best_f := some 5, best_solution := (0 : ℕ), caught_exception := false,
      cacheCommitted := [], cacheStaged := [1], cacheEnabled := true,
      direction := Direction.max, ignore_nans := true, prunerActive := false,
      prunerTrace := [], poolShutdown := false } 1
    { value := 3, error := none, is_nan := true, was_pruned := false,
      intermediate_results := [] } rfl rfl
  have h2 := c6_nan_handling_amended
    { best_f := some 5, best_solution := (0 : ℕ), caught_exception := false,
      cacheCommitted := [], cacheStaged := [1], cacheEnabled := true,
      direction := Direction.max, ignore_nans := false, prunerActive := false,
      prunerTrace := [], poolShutdown := false } 1
    { value := 3, error := none, is_nan := true, was_pruned := false,
      intermediate_results := [] } rfl rfl
  refine ⟨(h1.2.1 rfl rfl).1, (h1.2.1 rfl rfl).2.2.1, ?_⟩
  rw [h2.1 rfl]

mutual

/-- Helper: traversing a tree consumes exactly one mask bit per free
parameter, in order. -/
theorem mutateTree_snd {α : Type} : ∀ (t : PTree α) (mask : List Bool),
    (mutateTree t mask).2 = mask.drop t.freeParamCount
  | .param _, [] => by simp [mutateTree, PTree.freeParamCount]
  | .param _, _ :: _ => by simp [mutateTree, PTree.freeParamCount]
  | .constVal _, _ => by simp [mutateTree, PTree.freeParamCount]
  | .dictNode cs, mask => by
    simp [mutateTree, PTree.freeParamCount, mutateChildren_snd cs mask]
  | .listNode cs, mask => by
    simp [mutateTree, PTree.freeParamCount, mutateChildren_snd cs mask]

/-- Helper: traversing a child list consumes exactly one mask bit per
free parameter of the children, in order. -/
theorem mutateChildren_snd {α : Type} : ∀ (cs : List (PTree α)) (mask : List Bool),
    (mutateChildren cs mask).2 = mask.drop (PTree.freeParamCountList cs)
  | [], mask => by simp [mutateChildren, PTree.freeParamCountList]
  | c :: cs, mask => by
    rw [mutateChildren, PTree.freeParamCountList]
    simp [mutateChildren_snd cs _, mutateTree_snd c mask, List.drop_drop,
      Nat.add_comm]

end

mutual

/-- Helper: the number of mutated leaves of a traversed tree is the
number of `true` bits among the mask bits it consumes. -/
theorem mutateTree_count {α : Type} : ∀ (t : PTree α) (mask : List Bool),
    (mutateTree t mask).1.mutatedCount = (mask.take t.freeParamCount).count true
  | .param _, [] => by simp [mutateTree, PTree.freeParamCount, MTree.mutatedCount]
  | .param _, b :: rest => by
    cases b <;>
      simp [mutateTree, PTree.freeParamCount, MTree.mutatedCount, List.count_cons]
  | .constVal _, mask => by
    simp [mutateTree, PTree.freeParamCount, MTree.mutatedCount]
  | .dictNode cs, mask => by
    simp [mutateTree, PTree.freeParamCount, MTree.mutatedCount,
      mutateChildren_count cs mask]
  | .listNode cs, mask => by
    simp [mutateTree, PTree.freeParamCount, MTree.mutatedCount,
      mutateChildren_count cs mask]

/-- Helper: the number of mutated leaves across a child list is the
number of `true` bits among the mask bits the list consumes. -/
theorem mutateChildren_count {α : Type} : ∀ (cs : List (PTree α)) (mask : List Bool),
    MTree.mutatedCountList (mutateChildren cs mask).1 =
      (mask.take (PTree.freeParamCountList cs)).count true
  | [], mask => by simp [mutateChildren, PTree.freeParamCountList, MTree.mutatedCountList]
  | c :: cs, mask => by
    rw [mutateChildren, PTree.freeParamCountList]
    simp only [MTree.mutatedCountList, mutateTree_count c mask,
      mutateChildren_count cs _, mutateTree_snd c mask]
    rw [List.take_add, List.count_append]

end

mutual

/-- Helper: mutation preserves the constant leaves of the tree. -/
theorem mutateTree_constLeaves {α : Type} : ∀ (t : PTree α) (mask : List Bool),
    (mutateTree t mask).1.constLeaves = t.constLeaves
  | .param _, [] => by simp [mutateTree, PTree.constLeaves, MTree.constLeaves]
  | .param _, b :: _ => by
    cases b <;> simp [mutateTree, PTree.constLeaves, MTree.constLeaves]
  | .constVal _, _ => by simp [mutateTree, PTree.constLeaves, MTree.constLeaves]
  | .dictNode cs, mask => by
    simp [mutateTree, PTree.constLeaves, MTree.constLeaves,
      mutateChildren_constLeaves cs mask]
  | .listNode cs, mask => by
    simp [mutateTree, PTree.constLeaves, MTree.constLeaves,
      mutateChildren_constLeaves cs mask]

/-- Helper: mutation preserves the constant leaves across a child
list. -/
theorem mutateChildren_constLeaves {α : Type} :
    ∀ (cs : List (PTree α)) (mask : List Bool),
    MTree.constLeavesList (mutateChildren cs mask).1 = PTree.constLeavesList cs
  | [], _ => by simp [mutateChildren, PTree.constLeavesList, MTree.constLeavesList]
  | c :: cs, mask => by
    rw [mutateChildren, PTree.constLeavesList]
    simp only [MTree.constLeavesList, mutateTree_constLeaves c mask,
      mutateChildren_constLeaves cs _]

end

/-- Helper: the number of `true` bits of the drawn (unshuffled) bitmask
`[i < a for i in range(n)]` is `min a n` for a nonnegative threshold. -/
theorem count_true_rangeMask : ∀ (n : ℕ) (a : ℤ), 0 ≤ a →
    ((((List.range n).map (fun i : ℕ => decide ((i : ℤ) < a))).count true : ℤ))
      = min a n := by
  intro n
  induction n with
  | zero => intro a ha; simp [min_eq_right ha]
  | succ n ih =>
    intro a ha
    have hn := ih a ha
    by_cases h : (n : ℤ) < a
    · have h1 : min a (n : ℤ) = (n : ℤ) := min_eq_right (le_of_lt h)
      have h2 : min a ((n : ℤ) + 1) = (n : ℤ) + 1 := min_eq_right (by omega)
      rw [h1] at hn
      simp [List.range_succ, List.count_append, List.count_cons, h, hn]
      omega
    · have hle : a ≤ (n : ℤ) := le_of_not_lt h
      have h1 : min a (n : ℤ) = a := min_eq_left hle
      have h2 : min a ((n : ℤ) + 1) = a := min_eq_left (by omega)
      rw [h1] at hn
      simp [List.range_succ, List.count_append, List.count_cons, h, hn]
      omega

/-- Helper: Python rounding never exceeds an integer upper bound of its
argument. -/
theorem pyRound_le {q : ℚ} {n : ℕ} (hq : q ≤ n) : pyRound q ≤ n := by
  have hfloor : ⌊q⌋ ≤ (n : ℤ) := by
    have h := Int.floor_mono hq
    simpa using h
  unfold pyRound
  by_cases h1 : q - ⌊q⌋ < 1 / 2
  · rw [if_pos h1]
    exact hfloor
  · have hhalf : (⌊q⌋ : ℚ) + 1 / 2 ≤ q := by
      have h := le_of_not_lt h1
      linarith
  -- the fractional part is at least one half, so the floor is strictly
  -- below the integer bound and adding one stays within it
    have hlt : ⌊q⌋ < (n : ℤ) := by
      have hcast : (⌊q⌋ : ℚ) < (n : ℚ) := by linarith
      exact_mod_cast hcast
    rw [if_neg h1]
    by_cases h2 : (1 : ℚ) / 2 < q - ⌊q⌋
    · rw [if_pos h2]
      omega
    · rw [if_neg h2]
      by_cases h3 : 2 ∣ ⌊q⌋
      · rw [if_pos h3]
        omega
      · rw [if_neg h3]
        omega

/-- Helper: the number of parameters to mutate is at least 1. -/
theorem amountToMutate_pos (t : ℚ) (n : ℕ) : 1 ≤ amountToMutate t n :=
  le_max_right _ _

/-- Helper: the number of parameters to mutate never exceeds the
free-parameter count (for a nonempty search space). -/
theorem amountToMutate_le (t : ℚ) {n : ℕ} (hn : 1 ≤ n) :
    amountToMutate t n ≤ n := by
  have hc1 : clip01 t ≤ 1 := min_le_right _ _
  have hc0 : 0 ≤ clip01 t := le_min (le_max_right t 0) zero_le_one
  have hn0 : (0 : ℚ) ≤ (n : ℚ) := by positivity
  have hq : clip01 t * n ≤ (n : ℚ) := by nlinarith
  have h := pyRound_le hq
  have hn1 : (1 : ℤ) ≤ (n : ℤ) := by exact_mod_cast hn
  exact max_le h hn1

/-- Helper: at clipped temperature 0 exactly one parameter is marked for
mutation. -/
theorem amountToMutate_zero (n : ℕ) : amountToMutate 0 n = 1 := by
  have hc : clip01 0 = 0 := by norm_num [clip01]
  have hr : pyRound 0 = 0 := by norm_num [pyRound]
  simp [amountToMutate, hc, hr]

/-- Helper: at clipped temperature 1 all free parameters are marked for
mutation. -/
theorem amountToMutate_one {n : ℕ} (hn : 1 ≤ n) :
    amountToMutate 1 n = (n : ℤ) := by
  have hc : clip01 1 = 1 := by norm_num [clip01]
  have hr : pyRound ((n : ℚ)) = n := by
    unfold pyRound
    rw [Int.floor_natCast]
    norm_num
  have hn1 : (1 : ℤ) ≤ (n : ℤ) := by exact_mod_cast hn
  simp [amountToMutate, hc, hr]
  omega

/-- C4.  `mutate_from_best` at the tree root, with clipped temperature
`t` and free-parameter count `n > 0`, mutates exactly
`max(round(t * n), 1)` parameter leaves — for every shuffled order of
the drawn bitmask — and in particular that amount is 1 at temperature 0
and `n` at temperature 1, while constant leaves pass through
unchanged. -/
theorem c4_mutation_count {α : Type} (tree : PTree α) (t : ℚ) (n : ℕ)
    (hn : tree.freeParamCount = n) (hpos : 0 < n)
    (mask : List Bool) (hperm : mask.Perm (drawnMask t n)) :
    ((mutateFromBest tree mask).mutatedCount : ℤ) = amountToMutate t n ∧
    (mutateFromBest tree mask).constLeaves = tree.constLeaves ∧
    amountToMutate 0 n = 1 ∧
    amountToMutate 1 n = (n : ℤ) := by
  have hn1 : 1 ≤ n := hpos
  have hlen : mask.length = n := by
    have h := hperm.length_eq
    simpa [drawnMask] using h
  have hcount := mutateTree_count tree mask
  rw [hn, ← hlen, List.take_length] at hcount
  have hpermcount : mask.count true = (drawnMask t n).count true :=
    hperm.count_eq true
  have ha0 : (0 : ℤ) ≤ amountToMutate t n :=
    le_trans zero_le_one (amountToMutate_pos t n)
  have hdc := count_true_rangeMask n (amountToMutate t n) ha0
  have hmin : min (amountToMutate t n) (n : ℤ) = amountToMutate t n :=
    min_eq_left (amountToMutate_le t hn1)
  refine ⟨?_, mutateTree_constLeaves tree mask, amountToMutate_zero n,
    amountToMutate_one hn1⟩
  calc ((mutateFromBest tree mask).mutatedCount : ℤ)
      = (mask.count true : ℤ) := by rw [mutateFromBest, hcount]
    _ = ((drawnMask t n).count true : ℤ) := by exact_mod_cast hpermcount
    _ = min (amountToMutate t n) (n : ℤ) := by rw [drawnMask] at *; exact hdc
    _ = amountToMutate t n := hmin

/-- Helper: the drawn mask at temperature 1/2 over three free
parameters marks 2 = max(round(3/2), 1) bits (round half to even sends
3/2 to 2). -/
theorem drawnMask_half_three : drawnMask (1 / 2) 3 = [true, true, false] := by
  have ham : amountToMutate (1 / 2) 3 = 2 := by
    have hc : clip01 (1 / 2 : ℚ) = 1 / 2 := by norm_num [clip01]
    have hr : pyRound (3 / 2 : ℚ) = 2 := by
      have hf : ⌊(3 / 2 : ℚ)⌋ = 1 := by norm_num
      norm_num [pyRound, hf]
    norm_num [amountToMutate, hc, hr]
  simp only [drawnMask, ham]
  decide

/-- Witness for C4 at a concrete input: a tree with three free
parameters and one constant, at temperature 1/2, under a shuffled mask:
exactly 2 = max(round(1/2 * 3), 1) leaves are mutated and the constant
is preserved. -/
theorem c4_mutation_count_witness :
    ((mutateFromBest
        (PTree.dictNode [PTree.param 0, PTree.constVal (7 : ℤ),
          PTree.listNode [PTree.param 1, PTree.param 2]])
        [false, true, true]).mutatedCount : ℤ) = amountToMutate (1 / 2) 3 ∧
    (mutateFromBest
        (PTree.dictNode [PTree.param 0, PTree.constVal (7 : ℤ),
          PTree.listNode [PTree.param 1, PTree.param 2]])
        [false, true, true]).constLeaves =
      (PTree.dictNode [PTree.param 0, PTree.constVal (7 : ℤ),
          PTree.listNode [PTree.param 1, PTree.param 2]]).constLeaves ∧
    amountToMutate 0 3 = 1 ∧
    amountToMutate 1 3 = (3 : ℤ) :=
  c4_mutation_count
    (PTree.dictNode [PTree.param 0, PTree.constVal (7 : ℤ),
      PTree.listNode [PTree.param 1, PTree.param 2]])
    (1 / 2) 3 (by rfl) (by norm_num) [false, true, true]
    (by rw [drawnMask_half_three]; decide)

/-- Helper: submitting a candidate that is not currently staged, with a
constant objective, from a state whose best value is already that
constant and with no pruner, records the submission in the trace,
commits the candidate to the cache and leaves everything else — in
particular the best solution and best value — unchanged. -/
theorem submitCandidate_const {α : Type} [DecidableEq α] (c : ℚ)
    (ty : CandidateType) (cand : α) (st : LoopState α)
    (hbf : st.core.best_f = some c) (hpr : st.core.prunerActive = false)
    (hstg : cand ∉ st.core.cacheStaged) :
    submitCandidate (fun _ => c) ty cand st =
      { st with
        trace := st.trace ++ [(ty, cand)]
        core := { st.core with
          cacheCommitted := st.core.cacheCommitted ++ [(cand, c)] } } := by
  have hfil : (st.core.cacheStaged ++ [cand]).filter (fun x => x ≠ cand) =
      st.core.cacheStaged := by
    rw [List.filter_append]
    have h1 : st.core.cacheStaged.filter (fun x => x ≠ cand) = st.core.cacheStaged := by
      apply List.filter_eq_self.mpr
      intro x hx
      have hne : x ≠ cand := fun he => hstg (he ▸ hx)
      simp [hne]
    have h2 : List.filter (fun x => x ≠ cand) [cand] = [] := by simp
    rw [h1, h2, List.append_nil]
  simp [submitCandidate, inlineExecute, asyncResultReady, cacheStage, cacheCommit,
    hbf, hpr, hfil, lt_irrefl]
  intro a ha
  exact fun he => hstg (he ▸ ha)

/-- Helper: submitting the very first candidate (no best value yet) with
a constant objective records the submission, commits the candidate and
installs it as the best solution with the constant as best value. -/
theorem submitCandidate_first {α : Type} [DecidableEq α] (c : ℚ)
    (ty : CandidateType) (cand : α) (st : LoopState α)
    (hbf : st.core.best_f = none) (hpr : st.core.prunerActive = false)
    (hstg : cand ∉ st.core.cacheStaged) :
    submitCandidate (fun _ => c) ty cand st =
      { st with
        trace := st.trace ++ [(ty, cand)]
        core := { st.core with
          best_f := some c
          best_solution := cand
          cacheCommitted := st.core.cacheCommitted ++ [(cand, c)] } } := by
  have hfil : (st.core.cacheStaged ++ [cand]).filter (fun x => x ≠ cand) =
      st.core.cacheStaged := by
    rw [List.filter_append]
    have h1 : st.core.cacheStaged.filter (fun x => x ≠ cand) = st.core.cacheStaged := by
      apply List.filter_eq_self.mpr
      intro x hx
      have hne : x ≠ cand := fun he => hstg (he ▸ hx)
      simp [hne]
    have h2 : List.filter (fun x => x ≠ cand) [cand] = [] := by simp
    rw [h1, h2, List.append_nil]
  simp [submitCandidate, inlineExecute, asyncResultReady, cacheStage, cacheCommit,
    hbf, hpr, hfil]
  intro a ha
  exact fun he => hstg (he ▸ ha)

/-- Helper: with the rejection cache enabled, a candidate is absent from
the cache exactly when it is neither staged nor committed. -/
theorem cacheContains_false_iff {α : Type} [DecidableEq α] (s : SearchState α)
    (x : α) (hen : s.cacheEnabled = true) :
    cacheContains s x = false ↔
      (x ∉ s.cacheStaged ∧ x ∉ s.cacheCommitted.map Prod.fst) := by
  simp [cacheContains, hen]

/-- Helper: the main loop with a constant objective, an empty manual
queue, an enabled cache, the best value already equal to the constant,
no pruner, and fresh pairwise-distinct generated candidates submits
exactly one candidate per remaining budget step (in step order, tagged
seeding or local according to the phase) and never changes the best
solution or best value. -/
theorem runLoop_const {α : Type} [DecidableEq α] (c : ℚ) (sample mutate : ℕ → α) :
    ∀ (fuel : ℕ) (st : LoopState α),
      st.schedule.steps - st.schedule.current_step < fuel →
      st.manualQueue = [] →
      st.core.cacheEnabled = true →
      st.core.prunerActive = false →
      st.core.best_f = some c →
      (∀ j, st.schedule.current_step ≤ j → j < st.schedule.steps →
        cacheContains st.core
          (genCand sample mutate st.schedule.seeding_steps j) = false) →
      (∀ i j, st.schedule.current_step ≤ i → i < j → j < st.schedule.steps →
        genCand sample mutate st.schedule.seeding_steps i ≠
          genCand sample mutate st.schedule.seeding_steps j) →
      (runLoop (fun _ => c) sample mutate fuel st).trace =
        st.trace ++ (List.range' st.schedule.current_step
            (st.schedule.steps - st.schedule.current_step)).map
          (fun j => (genType st.schedule.seeding_steps j,
            genCand sample mutate st.schedule.seeding_steps j)) ∧
      (runLoop (fun _ => c) sample mutate fuel st).core.best_f = some c ∧
      (runLoop (fun _ => c) sample mutate fuel st).core.best_solution =
        st.core.best_solution := by
  intro fuel
  induction fuel with
  | zero => intro st hfuel; omega
  | succ fuel ih =>
    intro st hfuel hq hen hpr hbf hfresh hdist
    by_cases htime : st.schedule.is_timeout = true
    · have hz : st.schedule.steps - st.schedule.current_step = 0 := by
        unfold ScheduledRun.is_timeout at htime
        simp only [decide_eq_true_eq] at htime
        omega
      rw [runLoop, if_pos htime, hz]
      simp [hbf]
    · have hcs : st.schedule.current_step < st.schedule.steps := by
        unfold ScheduledRun.is_timeout at htime
        simp only [decide_eq_true_eq] at htime
        omega
      have hnotc := hfresh st.schedule.current_step (le_refl _) hcs
      have hcand : ¬ cacheContains st.core
          (genCand sample mutate st.schedule.seeding_steps
            st.schedule.current_step) = true := by
        rw [hnotc]; simp
      have hstg : genCand sample mutate st.schedule.seeding_steps
          st.schedule.current_step ∉ st.core.cacheStaged := by
        intro hmem
        rw [cacheContains, hen] at hnotc
        simp only [Bool.true_and, Bool.or_eq_false_iff] at hnotc
        have h1 := hnotc.1
        simp_all
      have hsub := submitCandidate_const c
        (genType st.schedule.seeding_steps st.schedule.current_step)
        (genCand sample mutate st.schedule.seeding_steps st.schedule.current_step)
        st hbf hpr hstg
      have hsel : selectCandidate sample mutate st =
          (genType st.schedule.seeding_steps st.schedule.current_step,
           genCand sample mutate st.schedule.seeding_steps
             st.schedule.current_step, st) := by
        unfold selectCandidate
        rw [hq]
        by_cases hseed : st.schedule.current_step < st.schedule.seeding_steps <;>
          simp [ScheduledRun.is_in_seeding_mode, genType, genCand, hseed]
      have hiter : loopIteration (fun _ => c) sample mutate st =
          { st with
            core := { st.core with cacheCommitted := st.core.cacheCommitted ++
              [(genCand sample mutate st.schedule.seeding_steps
                  st.schedule.current_step, c)] }
            schedule := { st.schedule with
              current_step := st.schedule.current_step + 1 }
            current_temperature := st.schedule.temperature
            trace := st.trace ++ [(genType st.schedule.seeding_steps
                st.schedule.current_step,
              genCand sample mutate st.schedule.seeding_steps
                st.schedule.current_step)] } := by
        simp only [loopIteration, hsel]
        rw [if_neg hcand, hsub]
        rfl
      obtain ⟨ihtr, ihbf, ihsol⟩ := ih
        { st with
          core := { st.core with cacheCommitted := st.core.cacheCommitted ++
            [(genCand sample mutate st.schedule.seeding_steps
                st.schedule.current_step, c)] }
          schedule := { st.schedule with
            current_step := st.schedule.current_step + 1 }
          current_temperature := st.schedule.temperature
          trace := st.trace ++ [(genType st.schedule.seeding_steps
              st.schedule.current_step,
            genCand sample mutate st.schedule.seeding_steps
              st.schedule.current_step)] }
        (by
          show st.schedule.steps - (st.schedule.current_step + 1) < fuel
          omega)
        hq hen hpr hbf
        (by
          intro j hj1 hj2
          have hj1' : st.schedule.current_step + 1 ≤ j := hj1
          have hj2' : j < st.schedule.steps := hj2
          have h1 := (cacheContains_false_iff st.core _ hen).mp
            (hfresh j (by omega) hj2')
          have h2 := hdist st.schedule.current_step j (le_refl _) (by omega) hj2'
          show cacheContains
              { st.core with cacheCommitted := st.core.cacheCommitted ++
                  [(genCand sample mutate st.schedule.seeding_steps
                      st.schedule.current_step, c)] }
              (genCand sample mutate st.schedule.seeding_steps j) = false
          apply (cacheContains_false_iff
            { st.core with cacheCommitted := st.core.cacheCommitted ++
                [(genCand sample mutate st.schedule.seeding_steps
                    st.schedule.current_step, c)] }
            (genCand sample mutate st.schedule.seeding_steps j) hen).mpr
          constructor
          · exact h1.1
          · show genCand sample mutate st.schedule.seeding_steps j ∉
              (st.core.cacheCommitted ++
                [(genCand sample mutate st.schedule.seeding_steps
                    st.schedule.current_step, c)]).map Prod.fst
            intro hmem
            rw [List.map_append] at hmem
            rcases List.mem_append.mp hmem with hmem1 | hmem2
            · exact h1.2 hmem1
            · have heq : genCand sample mutate st.schedule.seeding_steps j =
                  genCand sample mutate st.schedule.seeding_steps
                    st.schedule.current_step := by simpa using hmem2
              exact h2 heq.symm)
        (by
          intro i j hi hij hj
          have hi' : st.schedule.current_step + 1 ≤ i := hi
          have hj' : j < st.schedule.steps := hj
          exact hdist i j (by omega) hij hj')
      rw [runLoop, if_neg htime, hiter]
      refine ⟨?_, ihbf, ihsol⟩
      rw [ihtr]
      show (st.trace ++ [(genType st.schedule.seeding_steps st.schedule.current_step,
          genCand sample mutate st.schedule.seeding_steps st.schedule.current_step)]) ++
          (List.range' (st.schedule.current_step + 1)
            (st.schedule.steps - (st.schedule.current_step + 1))).map
            (fun j => (genType st.schedule.seeding_steps j,
              genCand sample mutate st.schedule.seeding_steps j)) =
        st.trace ++ (List.range' st.schedule.current_step
            (st.schedule.steps - st.schedule.current_step)).map
          (fun j => (genType st.schedule.seeding_steps j,
            genCand sample mutate st.schedule.seeding_steps j))
      have hrange : List.range' st.schedule.current_step
          (st.schedule.steps - st.schedule.current_step) =
          st.schedule.current_step ::
            List.range' (st.schedule.current_step + 1)
              (st.schedule.steps - (st.schedule.current_step + 1)) := by
        have hk : st.schedule.steps - st.schedule.current_step =
            (st.schedule.steps - (st.schedule.current_step + 1)) + 1 := by omega
        rw [hk]
        exact List.range'_succ _ _ 1
      rw [hrange]
      simp [List.append_assoc]

/-- Counterexample for C2.  A fresh run with `steps = 5`, the constant
objective 7 and candidate streams that never repeat performs exactly 5
evaluations in total — the mandatory baseline evaluation consumes one
budget step (`schedule.increment_step` after the initial submission,
`search.py` line 687) — not the 6 the claim states; the best solution is
still the initial guess. -/
theorem c2_steps5_six_evals_counterexample :
    (runModel (fun _ => (7 : ℚ)) (fun i => i + 1) (fun i => i + 100)
        Direction.max 5 2 (0 : ℕ) [] none []).trace.length = 5 ∧
    ¬ (runModel (fun _ => (7 : ℚ)) (fun i => i + 1) (fun i => i + 100)
        Direction.max 5 2 (0 : ℕ) [] none []).trace.length = 6 ∧
    (runModel (fun _ => (7 : ℚ)) (fun i => i + 1) (fun i => i + 100)
        Direction.max 5 2 (0 : ℕ) [] none []).core.best_solution = 0 := by
  refine ⟨by rfl, by decide, by rfl⟩

/-- Helper: a run of a fresh `Search` (no best value, empty queue and
cache) first evaluates the initial solution as a baseline — which
installs it as best with the constant objective value and consumes one
budget step — and then enters the main loop. -/
theorem runModel_fresh_baseline {α : Type} [DecidableEq α] (c : ℚ)
    (sample mutate : ℕ → α) (direction : Direction) (steps ss : ℕ) (init : α) :
    runModel (fun _ => c) sample mutate direction steps ss init [] none [] =
      runLoop (fun _ => c) sample mutate (steps + 1)
        { core :=
            { best_f := some c, best_solution := init,
              caught_exception := false, cacheCommitted := [(init, c)],
              cacheStaged := [], cacheEnabled := true, direction := direction,
              ignore_nans := false, prunerActive := false, prunerTrace := [],
              poolShutdown := false }
          schedule :=
            { steps := steps, seeding_steps := ss, current_step := 1,
              start_temperature := 1, end_temperature := 0 }
          current_temperature := ScheduledRun.temperature
            { steps := steps, seeding_steps := ss, current_step := 0,
              start_temperature := 1, end_temperature := 0 }
          manualQueue := [], trace := [(CandidateType.INIT, init)] } := by
  have hsub := submitCandidate_first c CandidateType.INIT init
    ({ core :=
          { best_f := none, best_solution := init, caught_exception := false,
            cacheCommitted := [], cacheStaged := [], cacheEnabled := true,
            direction := direction, ignore_nans := false, prunerActive := false,
            prunerTrace := [], poolShutdown := false }
       schedule :=
          { steps := steps, seeding_steps := ss, current_step := 0,
            start_temperature := 1, end_temperature := 0 }
       current_temperature := ScheduledRun.temperature
          { steps := steps, seeding_steps := ss, current_step := 0,
            start_temperature := 1, end_temperature := 0 }
       manualQueue := [], trace := [] } : LoopState α) rfl rfl (by simp)
  simp only [runModel]
  split
  · rw [hsub]
    rfl
  · simp_all

/-- C2 (amended).  A fresh run with `steps = 5`, a deterministic
constant-valued objective and no manually queued candidates evaluates
exactly 4 non-duplicate candidates in addition to the mandatory initial
baseline evaluation — 5 evaluations in total, because the baseline
consumes one budget step — and returns a best solution equal to the
initial guess (the constant value never strictly improves on itself). -/
theorem c2_steps5_amended {α : Type} [DecidableEq α] (c : ℚ) (init : α)
    (sample mutate : ℕ → α) (direction : Direction) (ss : ℕ)
    (hfresh : ∀ j, 1 ≤ j → j < 5 → genCand sample mutate ss j ≠ init)
    (hdist : ∀ i j, 1 ≤ i → i < j → j < 5 →
      genCand sample mutate ss i ≠ genCand sample mutate ss j) :
    (runModel (fun _ => c) sample mutate direction 5 ss init []
        none []).trace.length = 5 ∧
    (runModel (fun _ => c) sample mutate direction 5 ss init [] none []).trace =
      (CandidateType.INIT, init) ::
        (List.range' 1 4).map
          (fun j => (genType ss j, genCand sample mutate ss j)) ∧
    (runModel (fun _ => c) sample mutate direction 5 ss init []
        none []).core.best_solution = init ∧
    (runModel (fun _ => c) sample mutate direction 5 ss init []
        none []).core.best_f = some c := by
  have hrm := runModel_fresh_baseline c sample mutate direction 5 ss init
  obtain ⟨htr, hbf2, hsol⟩ := runLoop_const c sample mutate 6
    { core :=
        { best_f := some c, best_solution := init,
          caught_exception := false, cacheCommitted := [(init, c)],
          cacheStaged := [], cacheEnabled := true, direction := direction,
          ignore_nans := false, prunerActive := false, prunerTrace := [],
          poolShutdown := false }
      schedule :=
        { steps := 5, seeding_steps := ss, current_step := 1,
          start_temperature := 1, end_temperature := 0 }
      current_temperature := ScheduledRun.temperature
        { steps := 5, seeding_steps := ss, current_step := 0,
          start_temperature := 1, end_temperature := 0 }
      manualQueue := [], trace := [(CandidateType.INIT, init)] }
    (by show (5 : ℕ) - 1 < 6; omega) rfl rfl rfl rfl
    (by
      intro j hj1 hj2
      have hj1' : (1 : ℕ) ≤ j := hj1
      have hj2' : j < 5 := hj2
      apply (cacheContains_false_iff
        { best_f := some c, best_solution := init,
          caught_exception := false, cacheCommitted := [(init, c)],
          cacheStaged := [], cacheEnabled := true, direction := direction,
          ignore_nans := false, prunerActive := false, prunerTrace := [],
          poolShutdown := false }
        (genCand sample mutate ss j) rfl).mpr
      refine ⟨by simp, ?_⟩
      simp only [List.map_cons, List.map_nil, List.mem_singleton]
      exact hfresh j hj1' hj2')
    (by
      intro i j hi hij hj
      have hi' : (1 : ℕ) ≤ i := hi
      have hj' : j < 5 := hj
      exact hdist i j hi' hij hj')
  refine ⟨?_, ?_, ?_, ?_⟩
  · rw [hrm]
    rw [htr]
    simp
  · rw [hrm]
    rw [htr]
    simp
  · rw [hrm]
    exact hsol
  · rw [hrm]
    exact hbf2

/-- Witness for C2 (amended) at a concrete input: over natural-number
candidates with the constant objective 7, injective never-colliding
sampling and mutation streams, the run performs 5 evaluations led by the
baseline and keeps the initial guess 0 as best. -/
theorem c2_steps5_amended_witness :
    (runModel (fun _ => (7 : ℚ)) (fun i => i + 1) (fun i => i + 100)
        Direction.max 5 2 (0 : ℕ) [] none []).trace.length = 5 ∧
    (runModel (fun _ => (7 : ℚ)) (fun i => i + 1) (fun i => i + 100)
        Direction.max 5 2 (0 : ℕ) [] none []).trace =
      (CandidateType.INIT, 0) ::
        (List.range' 1 4).map
          (fun j => (genType 2 j, genCand (fun i => i + 1) (fun i => i + 100) 2 j)) ∧
    (runModel (fun _ => (7 : ℚ)) (fun i => i + 1) (fun i => i + 100)
        Direction.max 5 2 (0 : ℕ) [] none []).core.best_solution = 0 ∧
    (runModel (fun _ => (7 : ℚ)) (fun i => i + 1) (fun i => i + 100)
        Direction.max 5 2 (0 : ℕ) [] none []).core.best_f = some 7 :=
  c2_steps5_amended 7 0 (fun i => i + 1) (fun i => i + 100) Direction.max 2
    (by intro j h1 h5; interval_cases j <;> decide)
    (by
      intro i j h1 hij hj
      have hi5 : i < 5 := by omega
      interval_cases i <;> interval_cases j <;> decide)

/-- Helper: one loop iteration only appends to the submission trace
(nothing is ever removed or reordered). -/
theorem loopIteration_trace {α : Type} [DecidableEq α] (objective : α → ℚ)
    (sample mutate : ℕ → α) (st : LoopState α) :
    ∃ t0, (loopIteration objective sample mutate st).trace = st.trace ++ t0 := by
  unfold loopIteration
  rcases h : selectCandidate sample mutate st with ⟨ty, cand, st1⟩
  have hst1 : st1.trace = st.trace := by
    unfold selectCandidate at h
    cases hq : st.manualQueue with
    | nil =>
      rw [hq] at h
      by_cases hseed : st.schedule.is_in_seeding_mode = true <;>
        simp [hseed] at h <;> rw [← h.2.2]
    | cons a rest =>
      rw [hq] at h
      simp at h
      rw [← h.2.2]
  by_cases hc : cacheContains st1.core cand = true
  · exact ⟨[], by simp [h, hc, hst1]⟩
  · exact ⟨[(ty, cand)], by simp [h, hc, hst1, submitCandidate]⟩

/-- Helper: the main loop only appends to the submission trace. -/
theorem runLoop_trace_prefix {α : Type} [DecidableEq α] (objective : α → ℚ)
    (sample mutate : ℕ → α) :
    ∀ (fuel : ℕ) (st : LoopState α),
      ∃ tl, (runLoop objective sample mutate fuel st).trace = st.trace ++ tl := by
  intro fuel
  induction fuel with
  | zero => intro st; exact ⟨[], by simp [runLoop]⟩
  | succ fuel ih =>
    intro st
    rw [runLoop]
    by_cases htime : st.schedule.is_timeout = true
    · rw [if_pos htime]
      exact ⟨[], by simp⟩
    · rw [if_neg htime]
      obtain ⟨t0, ht0⟩ := loopIteration_trace objective sample mutate st
      obtain ⟨tl, htl⟩ := ih (loopIteration objective sample mutate st)
      exact ⟨t0 ++ tl, by rw [htl, ht0, List.append_assoc]⟩

/-- Helper: if the loop starts with a single-entry trace, that entry
stays the head of the final trace. -/
theorem runLoop_trace_head {α : Type} [DecidableEq α] (objective : α → ℚ)
    (sample mutate : ℕ → α) (fuel : ℕ) (st : LoopState α)
    (p : CandidateType × α) (h : st.trace = [p]) :
    (runLoop objective sample mutate fuel st).trace.head? = some p := by
  obtain ⟨tl, htl⟩ := runLoop_trace_prefix objective sample mutate fuel st
  rw [htl, h]
  rfl

/-- Helper: merging a manual guess into the registered dict entries
keeps one entry per registered key, in order, and every key the guess
does not touch keeps the best solution's subtree. -/
theorem enqueueDict_untouched {α : Type} [DecidableEq α] :
    ∀ (bs cs rs : List (String × VTree α)),
      enqueueDict bs cs = .ok rs →
      rs.length = bs.length ∧
      (∀ i (hi : i < bs.length), (bs.get ⟨i, hi⟩).1 ∉ cs.map Prod.fst →
        rs.get? i = some (bs.get ⟨i, hi⟩)) := by
  intro bs
  induction bs with
  | nil =>
    intro cs rs h
    rw [enqueueDict] at h
    cases h
    refine ⟨rfl, ?_⟩
    intro i hi
    simp at hi
  | cons p rest ih =>
    intro cs rs h
    obtain ⟨k, bv⟩ := p
    rw [enqueueDict] at h
    split at h
    · next e hfind =>
      split at h
      · next merged hrec =>
        split at h
        · next tl hdic =>
          cases h
          obtain ⟨ihlen, ihget⟩ := ih cs tl hdic
          refine ⟨by simp [ihlen], ?_⟩
          intro i hi hnot
          cases i with
          | zero =>
            exfalso
            have hmem := List.mem_of_find?_eq_some hfind
            have hp := List.find?_some hfind
            simp only [decide_eq_true_eq] at hp
            have hkmem : k ∈ cs.map Prod.fst := List.mem_map.mpr ⟨e, hmem, hp⟩
            simp only [List.get] at hnot
            exact hnot hkmem
          | succ n =>
            have hn : n < rest.length := by simpa using hi
            have hres := ihget n hn (by simpa using hnot)
            simpa using hres
        · next err hdic => simp at h
      · next err hrec => simp at h
    · next hfind =>
      split at h
      · next tl hdic =>
        cases h
        obtain ⟨ihlen, ihget⟩ := ih cs tl hdic
        refine ⟨by simp [ihlen], ?_⟩
        intro i hi hnot
        cases i with
        | zero => simp
        | succ n =>
          have hn : n < rest.length := by simpa using hi
          have hres := ihget n hn (by simpa using hnot)
          simpa using hres
      · next err hdic => simp at h

/-- Helper: a guess containing a key that was never registered makes
`_enqueue_rec` fail immediately with the error naming an offending
key. -/
theorem enqueueRec_unknown_key {α : Type} [DecidableEq α]
    (bs cs : List (String × VTree α)) (k : String)
    (hin : k ∈ cs.map Prod.fst) (hout : k ∉ bs.map Prod.fst) :
    ∃ kbad, kbad ∈ cs.map Prod.fst ∧ kbad ∉ bs.map Prod.fst ∧
      enqueueRec (VTree.dictNode bs) (VTree.dictNode cs) =
        .error (unknownKeyMsg kbad) := by
  obtain ⟨e, hme, hke⟩ := List.mem_map.mp hin
  rw [enqueueRec]
  split
  · next hall =>
    exfalso
    have hek := List.all_eq_true.mp hall e hme
    have hek2 : e.1 ∈ bs.map Prod.fst := by simpa using hek
    rw [hke] at hek2
    exact hout hek2
  · split
    · next ebad heq =>
      have hmemb := List.mem_of_find?_eq_some heq
      have hpb := List.find?_some heq
      simp only [decide_eq_true_eq] at hpb
      refine ⟨ebad.1, List.mem_map.mpr ⟨ebad, hmemb, rfl⟩, ?_, rfl⟩
      intro hmm
      exact hpb (by simpa using hmm)
    · next heq =>
      exfalso
      have := List.find?_eq_none.mp heq e hme
      simp only [decide_eq_true_eq] at this
      apply this
      intro hcont
      rw [hke] at hcont
      exact hout (by simpa using hcont)

/-- Helper: in a run whose manual queue is non-empty (and thus skips the
baseline evaluation), the first submitted candidate is the front of the
manual queue with origin `MANUALLY_ADDED`, before any seeded or mutated
candidate. -/
theorem runModel_manual_first {α : Type} [DecidableEq α] (objective : α → ℚ)
    (sample mutate : ℕ → α) (direction : Direction) (steps ss : ℕ)
    (init q : α) (qs : List α) (bf0 : Option ℚ) (hsteps : 1 ≤ steps) :
    (runModel objective sample mutate direction steps ss init (q :: qs)
        bf0 []).trace.head? = some (CandidateType.MANUALLY_ADDED, q) := by
  simp only [runModel]
  rw [if_neg (by simp)]
  rw [runLoop]
  split
  · next h =>
    exfalso
    have hle : steps ≤ 0 := by
      simpa [ScheduledRun.is_timeout] using h
    omega
  · apply runLoop_trace_head
    simp [loopIteration, selectCandidate, submitCandidate, cacheContains]

/-- C7.  Manual enqueueing: (i) a guess assigning only a subset of the
registered keys is merged so that every untouched key keeps the current
best solution's subtree (not a fresh sample); (ii) a guess containing a
key not registered in the search space fails immediately with the
configuration error naming an offending key; (iii) in the next run the
queued candidate is popped and submitted before any randomly seeded or
mutated candidate. -/
theorem c7_enqueue_fill_and_priority :
    (∀ (bs cs rs : List (String × VTree ℤ)),
        enqueueDict bs cs = .ok rs →
        rs.length = bs.length ∧
        (∀ i (hi : i < bs.length), (bs.get ⟨i, hi⟩).1 ∉ cs.map Prod.fst →
          rs.get? i = some (bs.get ⟨i, hi⟩))) ∧
    (∀ (bs cs : List (String × VTree ℤ)) (k : String),
        k ∈ cs.map Prod.fst → k ∉ bs.map Prod.fst →
        ∃ kbad, kbad ∈ cs.map Prod.fst ∧ kbad ∉ bs.map Prod.fst ∧
          enqueueRec (VTree.dictNode bs) (VTree.dictNode cs) =
            .error (unknownKeyMsg kbad)) ∧
    (∀ (α : Type) (_ : DecidableEq α) (objective : α → ℚ)
        (sample mutate : ℕ → α) (direction : Direction) (steps ss : ℕ)
        (init q : α) (qs : List α) (bf0 : Option ℚ), 1 ≤ steps →
        (runModel objective sample mutate direction steps ss init (q :: qs)
            bf0 []).trace.head? = some (CandidateType.MANUALLY_ADDED, q)) :=
  ⟨fun bs cs rs h => enqueueDict_untouched bs cs rs h,
   fun bs cs k hin hout => enqueueRec_unknown_key bs cs k hin hout,
   fun _ _ objective sample mutate direction steps ss init q qs bf0 hs =>
     runModel_manual_first objective sample mutate direction steps ss init
       q qs bf0 hs⟩

/-- Witness for C7 at concrete inputs: merging the guess that only sets
key a into a two-key best solution keeps key b's best value; a guess
with the unregistered key c errors; and a run with the queued candidate
9 submits it first. -/
theorem c7_enqueue_fill_and_priority_witness :
    ([("a", VTree.leaf (9 : ℤ)), ("b", VTree.leaf 2)] :
        List (String × VTree ℤ)).get? 1 = some ("b", VTree.leaf 2) ∧
    (∃ kbad, kbad ∈ ([("c", VTree.leaf (5 : ℤ))] :
          List (String × VTree ℤ)).map Prod.fst ∧
        kbad ∉ ([("a", VTree.leaf (1 : ℤ)), ("b", VTree.leaf 2)] :
          List (String × VTree ℤ)).map Prod.fst ∧
        enqueueRec (VTree.dictNode [("a", VTree.leaf (1 : ℤ)), ("b", VTree.leaf 2)])
            (VTree.dictNode [("c", VTree.leaf 5)]) =
          .error (unknownKeyMsg kbad)) ∧
    (runModel (fun _ => (0 : ℚ)) (fun i => i) (fun i => i) Direction.max 1 0
        (0 : ℕ) [9] none []).trace.head? =
      some (CandidateType.MANUALLY_ADDED, 9) := by
  obtain ⟨h1, h2, h3⟩ := c7_enqueue_fill_and_priority
  refine ⟨?_, ?_, ?_⟩
  · have hres := (h1 [("a", VTree.leaf 1), ("b", VTree.leaf 2)]
      [("a", VTree.leaf 9)] [("a", VTree.leaf 9), ("b", VTree.leaf 2)]
      (by rfl)).2 1 (by norm_num) (by decide)
    exact hres
  · exact h2 [("a", VTree.leaf 1), ("b", VTree.leaf 2)]
      [("c", VTree.leaf 5)] "c" (by decide) (by decide)
  · exact h3 ℕ inferInstance (fun _ => 0) (fun i => i) (fun i => i)
      Direction.max 1 0 0 9 [] none (by norm_num)

/-- Counterexample for C8.  A non-terminated `Search` state that is in
the middle of a run (its run context exists and has not terminated)
saves a checkpoint whose `run_context` entry is non-null; loading that
checkpoint into a fresh `Search` object — whose `_run_context` is
`None` — crashes at `self._run_context.load_state_dict(...)`
(`search.py` line 780) with an `AttributeError` that the
`except KeyError` clause does not catch, before any state is restored,
so the round trip does not reproduce anything. -/
theorem c8_midrun_load_counterexample :
    saveModel
        ({ best_f := some 5, best_solution := 4, cacheCommitted := [(4, 5)],
           cacheStaged := [], history := [(4, 5)],
           run_context := some
             { terminate := false, prunerId := none,
               sd := { direction := Direction.max, progress := 3 } } } :
          CkptSearch ℕ) none =
      .ok { run_context := some (some { direction := Direction.max, progress := 3 }),
            cache := some ([(4, 5)], []), best_f := some (some 5),
            history := some [(4, 5)], prunerS := none, best_solution := some 4 } ∧
    loadModel
        ({ best_f := none, best_solution := 0, cacheCommitted := [],
           cacheStaged := [], history := [], run_context := none } :
          CkptSearch ℕ) "run.ckpt" none
        { run_context := some (some { direction := Direction.max, progress := 3 }),
          cache := some ([(4, 5)], []), best_f := some (some 5),
          history := some [(4, 5)], prunerS := none, best_solution := some 4 } =
      .error (LoadErr.attributeError noneLoadStateMsg) := by
  constructor
  · rfl
  · rfl

/-- C8 (amended).  For every `Search` state without an active run
context (a fresh object, or one between runs — where `_run_context` is
`None`), `save` followed by `load` on a fresh `Search` object with the
same registered search space reproduces the identical best value, best
solution, history and evaluation-cache membership; a state saved in the
middle of a run (active, non-terminated run context) cannot be loaded
into a fresh object at all, as the counterexample shows. -/
theorem c8_roundtrip_amended {α : Type} [DecidableEq α]
    (s fresh : CkptSearch α) (path : String)
    (hs : s.run_context = none) (_hf : fresh.run_context = none) :
    ∃ ck, saveModel s none = .ok ck ∧
      ∃ t, loadModel fresh path none ck = .ok t ∧
        t.best_f = s.best_f ∧ t.best_solution = s.best_solution ∧
        t.history = s.history ∧
        (∀ c, ckptCacheContains t c = ckptCacheContains s c) := by
  refine ⟨mkCkpt s none, by simp [saveModel, hs], ?_⟩
  refine ⟨{ fresh with
              cacheCommitted := s.cacheCommitted,
              cacheStaged := s.cacheStaged, history := s.history,
              best_f := s.best_f, best_solution := s.best_solution },
    ?_, rfl, rfl, rfl, ?_⟩
  · simp [loadModel, mkCkpt, hs, loadRest]
  · intro c
    simp [ckptCacheContains]

/-- Witness for C8 (amended) at a concrete input: a never-run search
state over natural-number candidates with best value 5 round-trips its
best value, best solution, history and cache membership through
save/load into a fresh object. -/
theorem c8_roundtrip_amended_witness :
    ∃ ck, saveModel
        ({ best_f := some 5, best_solution := 4, cacheCommitted := [(4, 5)],
           cacheStaged := [7], history := [(4, 5)], run_context := none } :
          CkptSearch ℕ) none = .ok ck ∧
      ∃ t, loadModel
          ({ best_f := none, best_solution := 0, cacheCommitted := [],
             cacheStaged := [], history := [], run_context := none } :
            CkptSearch ℕ) "run.ckpt" none ck = .ok t ∧
        t.best_f = some 5 ∧ t.best_solution = 4 ∧
        t.history = [(4, 5)] ∧
        (∀ c, ckptCacheContains t c = ckptCacheContains
          ({ best_f := some 5, best_solution := 4, cacheCommitted := [(4, 5)],
             cacheStaged := [7], history := [(4, 5)], run_context := none } :
            CkptSearch ℕ) c) :=
  c8_roundtrip_amended
    ({ best_f := some 5, best_solution := 4, cacheCommitted := [(4, 5)],
       cacheStaged := [7], history := [(4, 5)], run_context := none } :
      CkptSearch ℕ)
    ({ best_f := none, best_solution := 0, cacheCommitted := [],
       cacheStaged := [], history := [], run_context := none } :
      CkptSearch ℕ) "run.ckpt" rfl rfl

/-- C9.  For every checkpoint record missing any of the required keys
(`run_context`, `cache`, `history`, `best_f`, `best_solution`), `load`
on a `Search` object whose run-context restore cannot itself crash
(its run context is present, as in the resume flow where `run` creates
it before calling `load`) raises the single descriptive `ValueError`
that names the offending checkpoint file, wrapping the raw `KeyError`
of the first missing key. -/
theorem c9_load_missing_key_error {α : Type} [DecidableEq α]
    (t : CkptSearch α) (path : String) (prunerArg : Option ℕ) (ck : Ckpt α)
    (hrc : t.run_context.isSome = true)
    (hmiss : ck.run_context = none ∨ ck.cache = none ∨ ck.history = none ∨
      ck.best_f = none ∨ ck.best_solution = none) :
    ∃ key, (key = "run_context" ∨ key = "cache" ∨ key = "history" ∨
        key = "best_f" ∨ key = "best_solution") ∧
      loadModel t path prunerArg ck =
        .error (.valueError (keyErrorWrapMsg path key)) := by
  cases hrc1 : ck.run_context with
  | none => exact ⟨"run_context", Or.inl rfl, by simp [loadModel, hrc1]⟩
  | some rcv =>
    have hload : ∃ t1, loadModel t path prunerArg ck = loadRest t1 path prunerArg ck := by
      cases rcv with
      | none => exact ⟨t, by simp [loadModel, hrc1]⟩
      | some rcs =>
        obtain ⟨ctx, hctx⟩ := Option.isSome_iff_exists.mp hrc
        exact ⟨{ t with run_context := some { ctx with sd := rcs } },
          by simp [loadModel, hrc1, hctx]⟩
    obtain ⟨t1, ht1⟩ := hload
    rw [ht1]
    by_cases hc : ck.cache = none
    · exact ⟨"cache", by tauto, by simp [loadRest, hc]⟩
    · obtain ⟨cv, hcv⟩ := Option.ne_none_iff_exists'.mp hc
      by_cases hh : ck.history = none
      · exact ⟨"history", by tauto, by simp [loadRest, hcv, hh]⟩
      · obtain ⟨hv, hhv⟩ := Option.ne_none_iff_exists'.mp hh
        by_cases hbf : ck.best_f = none
        · exact ⟨"best_f", by tauto, by simp [loadRest, hcv, hhv, hbf]⟩
        · obtain ⟨fv, hfv⟩ := Option.ne_none_iff_exists'.mp hbf
          by_cases hbs : ck.best_solution = none
          · exact ⟨"best_solution", by tauto,
              by simp [loadRest, hcv, hhv, hfv, hbs]⟩
          · exfalso
            rcases hmiss with h | h | h | h | h
            · rw [hrc1] at h; exact Option.some_ne_none _ h
            · exact hc h
            · exact hh h
            · exact hbf h
            · exact hbs h

/-- Witness for C9 at a concrete input: a checkpoint record missing its
`cache` entry, loaded into a search object with an active run context,
fails with the descriptive error naming the checkpoint file. -/
theorem c9_load_missing_key_error_witness :
    ∃ key, (key = "run_context" ∨ key = "cache" ∨ key = "history" ∨
        key = "best_f" ∨ key = "best_solution") ∧
      loadModel
          ({ best_f := none, best_solution := 0, cacheCommitted := [],
             cacheStaged := [], history := [],
             run_context := some
               { terminate := false, prunerId := none,
                 sd := { direction := Direction.max, progress := 0 } } } :
            CkptSearch ℕ) "broken.ckpt" none
          { run_context := some none, cache := none, history := some [],
            best_f := some none, prunerS := none, best_solution := some 0 } =
        .error (.valueError (keyErrorWrapMsg "broken.ckpt" key)) :=
  c9_load_missing_key_error
    ({ best_f := none, best_solution := 0, cacheCommitted := [],
       cacheStaged := [], history := [],
       run_context := some
         { terminate := false, prunerId := none,
           sd := { direction := Direction.max, progress := 0 } } } :
      CkptSearch ℕ) "broken.ckpt" none
    { run_context := some none, cache := none, history := some [],
      best_f := some none, prunerS := none, best_solution := some 0 }
    rfl (Or.inr (Or.inl rfl))

end Pyhopper
